import Mathlib

/-!
Verification of the trial-sequencing engine of `ezmsg-tasks`.

The definitions below are a shallow embedding of the Python sources
`reaction.py`, `ssaep.py`, `ssvep/task.py` and `ssvep/dynamicclasses.py`:
pure computations become Lean functions, the stateful run loops become
explicit traces / state-passing functions, machine floats are idealized as
rationals, and the asyncio primitives (`sleep`, `wait_for`, `wait`,
`Event`, `Queue`) are modelled by their documented semantics.
-/

namespace EzmsgTasks

/-- Python `round` (banker's rounding, half to even) on a rational. -/
def pyRound (q : ℚ) : ℤ :=
  let f := ⌊q⌋
  let frac := q - (f : ℚ)
  if frac < 1 / 2 then f
  else if 1 / 2 < frac then f + 1
  else if f % 2 = 0 then f else f + 1

/-- A rational is an integer (Python `math.modf(x)` returns fractional part 0). -/
def isIntRat (q : ℚ) : Prop := q.den = 1

instance : DecidablePred isIntRat := fun q => decEq q.den 1

/-! ## Trial planning

`reaction.py` lines 205-209 (and `ssaep.py` 222-226):

    trials = []
    for _ in range(trials_per_class):
        random.shuffle(classes)       # shuffles `classes` IN PLACE
        trials += classes

`ssvep/task.py` lines 216-220:

    trials = []
    for _ in range(trials_per_class):
        random.shuffle(list(classes.keys()))   # shuffles a throwaway COPY
        trials += classes                      # appends dict keys, fixed order

The random source is modelled as a function `shuffle : Nat → List String →
List String` giving the result of the n-th `random.shuffle` call in this
run; a seed determines such a function, and any such function with
`ShuffleValid` below is realizable by some seed. -/

/-- The modelled random source: each call of `random.shuffle` permutes its
input list. -/
def ShuffleValid (shuffle : Nat → List String → List String) : Prop :=
  ∀ i l, (shuffle i l).Perm l

/-- Reaction/SSAEP trial-order builder: `random.shuffle(classes)` mutates
`classes` in place, so block `i+1` shuffles the result of block `i`. -/
def reactionPlanAux (shuffle : Nat → List String → List String) :
    Nat → Nat → List String → List String
  | _, 0, _ => []
  | i, k + 1, cur =>
    let cur' := shuffle i cur
    cur' ++ reactionPlanAux shuffle (i + 1) k cur'

def reactionPlan (shuffle : Nat → List String → List String) (k : Nat)
    (classes : List String) : List String :=
  reactionPlanAux shuffle 0 k classes

/-- SSVEP trial-order builder: `random.shuffle(list(classes.keys()))`
shuffles a copy whose result is discarded, and `trials += classes` extends
with the dict's keys in insertion order, every iteration. -/
def ssvepPlanAux (shuffle : Nat → List String → List String) :
    Nat → Nat → List String → List String
  | _, 0, _ => []
  | i, k + 1, keys =>
    let _discarded := shuffle i keys
    keys ++ ssvepPlanAux shuffle (i + 1) k keys

def ssvepPlan (shuffle : Nat → List String → List String) (k : Nat)
    (classKeys : List String) : List String :=
  ssvepPlanAux shuffle 0 k classKeys

/-- Block `j` (0-based) of a planned trial sequence, of block size `m`. -/
def planBlock (plan : List String) (m j : Nat) : List String :=
  (plan.drop (j * m)).take m

lemma ssvepPlanAux_eq (shuffle : Nat → List String → List String) :
    ∀ (k i : Nat) (keys : List String),
      ssvepPlanAux shuffle i k keys = (List.replicate k keys).flatten := by
  intro k
  induction k with
  | zero => intro i keys; rfl
  | succ n ih =>
    intro i keys
    simp [ssvepPlanAux, List.replicate_succ, ih (i + 1)]

lemma replicate_flatten_block (keys : List String) :
    ∀ (k j : Nat), j < k →
      planBlock ((List.replicate k keys).flatten) keys.length j = keys := by
  intro k
  induction k with
  | zero => intro j hj; exact absurd hj (Nat.not_lt_zero j)
  | succ n ih =>
    intro j hj
    cases j with
    | zero =>
      simp [planBlock, List.replicate_succ, List.take_left]
    | succ j' =>
      have hj' : j' < n := Nat.lt_of_succ_lt_succ hj
      have := ih j' hj'
      simp only [planBlock, List.replicate_succ, List.flatten_cons] at *
      rw [Nat.succ_mul, Nat.add_comm, List.drop_append]
      exact this

lemma reactionPlanAux_length (shuffle : Nat → List String → List String)
    (hs : ShuffleValid shuffle) :
    ∀ (k i : Nat) (cur : List String),
      (reactionPlanAux shuffle i k cur).length = k * cur.length := by
  intro k
  induction k with
  | zero => intro i cur; simp [reactionPlanAux]
  | succ n ih =>
    intro i cur
    have hlen : (shuffle i cur).length = cur.length := (hs i cur).length_eq
    simp [reactionPlanAux, ih (i + 1), hlen, Nat.succ_mul, Nat.add_comm]

lemma reactionPlanAux_block (shuffle : Nat → List String → List String)
    (hs : ShuffleValid shuffle) (classes : List String) :
    ∀ (k i : Nat) (cur : List String), cur.Perm classes →
      ∀ j, j < k →
        (planBlock (reactionPlanAux shuffle i k cur) classes.length j).Perm
          classes := by
  intro k
  induction k with
  | zero => intro i cur _ j hj; exact absurd hj (Nat.not_lt_zero j)
  | succ n ih =>
    intro i cur hcur j hj
    have hperm : (shuffle i cur).Perm classes := (hs i cur).trans hcur
    have hlen : (shuffle i cur).length = classes.length := hperm.length_eq
    cases j with
    | zero =>
      simpa [planBlock, reactionPlanAux, ← hlen, List.take_left] using hperm
    | succ j' =>
      have hj' : j' < n := Nat.lt_of_succ_lt_succ hj
      have := ih (i + 1) (shuffle i cur) hperm j' hj'
      simp only [planBlock, reactionPlanAux] at *
      rw [Nat.succ_mul, Nat.add_comm]
      nth_rewrite 2 [← hlen]
      rw [List.drop_append]
      exact this

/-- A concrete realizable random source: the first `random.shuffle` call
leaves its argument unchanged, every later call reverses it. -/
def demoShuffle : Nat → List String → List String :=
  fun i l => if i = 0 then l else l.reverse

lemma demoShuffle_valid : ShuffleValid demoShuffle := by
  intro i l
  unfold demoShuffle
  by_cases h : i = 0 <;> simp [h]

/-! ## Control-gate teardown (try/finally structure of task_implementation)

`task_implementation` in all three paradigms has the shape

    self.STATE.task_controls.disabled = True
    try:
        <body>
    finally:
        <paradigm-specific idle reset>
        self.STATE.task_controls.disabled = False

modelled as traces of primitive widget actions.  Python guarantees the
`finally` suite runs on normal return, `TaskComplete`, `CancelledError`
and any other exception, and does not alter which of those propagates. -/

inductive TaskAction where
  | disableControls
  | enableControls
  | setCue (c : String)
  | setAudioMuted (b : Bool)
  | clearStimulus
  | addStimulus
  | setCenterButton (enabled : Bool)
  | setDirButton (d : String) (enabled : Bool)
  | sleepStep
  | emitStep
  deriving DecidableEq

/-- How a run of `task_implementation` terminates. -/
inductive ExitKind where
  | taskComplete
  | cancelled
  | failed
  deriving DecidableEq

structure ControlState where
  controlsDisabled : Bool
  cue : String
  audioMuted : Bool
  stimulusShown : Bool
  centerEnabled : Bool
  dirEnabled : List String
  deriving DecidableEq

def applyAction (s : ControlState) : TaskAction → ControlState
  | .disableControls => { s with controlsDisabled := true }
  | .enableControls => { s with controlsDisabled := false }
  | .setCue c => { s with cue := c }
  | .setAudioMuted b => { s with audioMuted := b }
  | .clearStimulus => { s with stimulusShown := false }
  | .addStimulus => { s with stimulusShown := true }
  | .setCenterButton b => { s with centerEnabled := b }
  | .setDirButton d b =>
      { s with dirEnabled :=
          if b then d :: s.dirEnabled else s.dirEnabled.filter (fun x => !(x == d)) }
  | .sleepStep => s
  | .emitStep => s

def applyTrace (s : ControlState) (tr : List TaskAction) : ControlState :=
  tr.foldl applyAction s

/-- reaction.py 252-253: `finally: self.STATE.task_controls.disabled = False`. -/
def reactionFinallyTrace : List TaskAction := [.enableControls]

/-- ssaep.py 269-272: cue to idle, audio muted, controls re-enabled. -/
def ssaepFinallyTrace : List TaskAction :=
  [.setCue "...", .setAudioMuted true, .enableControls]

/-- ssvep/task.py 332-334: stimulus row cleared, controls re-enabled. -/
def ssvepFinallyTrace : List TaskAction := [.clearStimulus, .enableControls]

/-- `disable controls; try: body finally: fin` — the finally suite runs on
every exit and the exit kind propagates unchanged. -/
def runTaskImplementation (fin body : List TaskAction) (e : ExitKind) :
    List TaskAction × ExitKind :=
  (TaskAction.disableControls :: (body ++ fin), e)

/-- reaction.py 258-272 `center_trial`: enable center button, race the
button against the decode event, settle; the inner `finally` (line 271-272)
always disables the button again. -/
def centerTrialScript : List TaskAction :=
  [.setCenterButton true, .sleepStep, .sleepStep]

def centerTrialFinallyTrace : List TaskAction := [.setCenterButton false]

/-- reaction.py 274-298 `direction_trial`: center press, direction press,
center press; the inner `finally` (296-298) disables both buttons. -/
def directionTrialScript (d : String) : List TaskAction :=
  [.setCenterButton true, .sleepStep, .sleepStep, .setCenterButton false,
   .setDirButton d true, .sleepStep, .sleepStep, .setDirButton d false,
   .setCenterButton true, .sleepStep, .sleepStep, .setCenterButton false]

def directionTrialFinallyTrace (d : String) : List TaskAction :=
  [.setCenterButton false, .setDirButton d false]

/-- The executions the reaction body can produce: sleeps and record
emissions, and trials that may be truncated at any point by
timeout-cancellation or external cancellation but whose inner `finally`
always runs. -/
inductive ReactionBody : List TaskAction → Prop
  | nil : ReactionBody []
  | plain (a : TaskAction) (tr : List TaskAction)
      (h : a = .sleepStep ∨ a = .emitStep) :
      ReactionBody tr → ReactionBody (a :: tr)
  | center (n : Nat) (tr : List TaskAction) : ReactionBody tr →
      ReactionBody ((centerTrialScript.take n ++ centerTrialFinallyTrace) ++ tr)
  | direction (d : String) (n : Nat) (tr : List TaskAction) : ReactionBody tr →
      ReactionBody
        (((directionTrialScript d).take n ++ directionTrialFinallyTrace d) ++ tr)

/-- All enabled direction buttons are `d` (used to show the inner finally
closes every direction button a trial opened). -/
def DirSub (d : String) (s : ControlState) : Prop :=
  ∀ x ∈ s.dirEnabled, x = d

lemma applyTrace_append (s : ControlState) (t₁ t₂ : List TaskAction) :
    applyTrace s (t₁ ++ t₂) = applyTrace (applyTrace s t₁) t₂ := by
  simp [applyTrace, List.foldl_append]

lemma dirEnabled_preserved (tr : List TaskAction)
    (h : ∀ a ∈ tr, ∀ s : ControlState, (applyAction s a).dirEnabled = s.dirEnabled) :
    ∀ s : ControlState, (applyTrace s tr).dirEnabled = s.dirEnabled := by
  induction tr with
  | nil => intro s; rfl
  | cons a tr ih =>
    intro s
    have ha := h a (List.mem_cons_self a tr)
    have htr := ih (fun b hb s => h b (List.mem_cons_of_mem a hb) s)
    simp only [applyTrace, List.foldl_cons] at *
    rw [htr, ha s]

lemma dirSub_preserved (d : String) (tr : List TaskAction)
    (h : ∀ a ∈ tr, (∀ b : Bool, a ≠ .setDirButton d b) →
      ∀ s : ControlState, (applyAction s a).dirEnabled = s.dirEnabled) :
    ∀ s : ControlState, DirSub d s → DirSub d (applyTrace s tr) := by
  induction tr with
  | nil => intro s hs; exact hs
  | cons a tr ih =>
    intro s hs
    have htr := ih (fun b hb => h b (List.mem_cons_of_mem a hb))
    simp only [applyTrace, List.foldl_cons] at *
    apply htr
    by_cases ha : ∃ b : Bool, a = .setDirButton d b
    · obtain ⟨b, rfl⟩ := ha
      cases b with
      | true =>
        intro x hx
        simp only [applyAction, if_true] at hx
        rcases List.mem_cons.mp hx with h1 | h2
        · exact h1
        · exact hs x h2
      | false =>
        intro x hx
        simp only [applyAction, Bool.false_eq_true, if_false] at hx
        exact hs x (List.mem_filter.mp hx).1
    · push_neg at ha
      have heq := h a (List.mem_cons_self a tr) ha
      intro x hx
      rw [heq s] at hx
      exact hs x hx

lemma filter_dirSub (d : String) (l : List String) (h : ∀ x ∈ l, x = d) :
    l.filter (fun x => !(x == d)) = [] := by
  rw [List.filter_eq_nil_iff]
  intro a ha
  simp [h a ha]

lemma reactionBody_buttons {tr : List TaskAction} (h : ReactionBody tr) :
    ∀ s : ControlState, s.centerEnabled = false → s.dirEnabled = [] →
      (applyTrace s tr).centerEnabled = false ∧ (applyTrace s tr).dirEnabled = [] := by
  induction h with
  | nil => intro s h1 h2; exact ⟨h1, h2⟩
  | plain a tr ha htr ih =>
    intro s h1 h2
    have heq : applyAction s a = s := by rcases ha with rfl | rfl <;> rfl
    simp only [applyTrace, List.foldl_cons, heq]
    exact ih s h1 h2
  | center n tr htr ih =>
    intro s h1 h2
    rw [applyTrace_append, applyTrace_append]
    have hdir : (applyTrace s (centerTrialScript.take n)).dirEnabled = s.dirEnabled := by
      apply dirEnabled_preserved
      intro a hmem s'
      have hm := List.take_subset n centerTrialScript hmem
      simp only [centerTrialScript, List.mem_cons, List.mem_singleton,
        List.not_mem_nil, or_false] at hm
      rcases hm with rfl | rfl | rfl <;> rfl
    apply ih
    · rfl
    · simpa [applyTrace, applyAction] using (hdir.trans h2)
  | direction d n tr htr ih =>
    intro s h1 h2
    rw [applyTrace_append, applyTrace_append]
    have hsub : DirSub d (applyTrace s ((directionTrialScript d).take n)) := by
      apply dirSub_preserved
      · intro a hmem hne s'
        have hm := List.take_subset n (directionTrialScript d) hmem
        simp only [directionTrialScript, List.mem_cons, List.mem_singleton,
          List.not_mem_nil, or_false] at hm
        rcases hm with rfl | rfl | rfl | rfl | rfl | rfl | rfl | rfl | rfl | rfl | rfl | rfl
        all_goals first
          | rfl
          | exact absurd rfl (hne true)
          | exact absurd rfl (hne false)
      · intro x hx
        rw [h2] at hx
        exact absurd hx (List.not_mem_nil x)
    apply ih
    · rfl
    · show (applyAction (applyAction _ (.setCenterButton false))
        (.setDirButton d false)).dirEnabled = []
      simp only [applyAction, Bool.false_eq_true, if_false]
      exact filter_dirSub d _ hsub
/-- C1: the claim asks that trial planning return `k·m` trials in `k`
independently shuffled blocks, each a permutation of the class set, with
two blocks differing in order for some seed.  The reaction/SSAEP builder
satisfies this (second conjunct, plus the concrete seed evaluation in the
last conjunct), but the SSVEP builder cited by the claim shuffles a
discarded copy of `list(classes.keys())`: every block equals the dict key
order for every random source (first and fourth conjuncts), contradicting
the code's own `blockwise randomized` comment. -/
theorem C1_ssvep_plan_blocks_identical :
    (∀ (shuffle : Nat → List String → List String) (k : Nat)
        (classKeys : List String) (j : Nat), j < k →
        planBlock (ssvepPlan shuffle k classKeys) classKeys.length j = classKeys)
    ∧ (∀ (shuffle : Nat → List String → List String), ShuffleValid shuffle →
        ∀ (k : Nat) (classes : List String) (j : Nat), j < k →
          (planBlock (reactionPlan shuffle k classes) classes.length j).Perm
            classes)
    ∧ ShuffleValid demoShuffle
    ∧ ssvepPlan demoShuffle 2 ["A", "B"] = ["A", "B", "A", "B"]
    ∧ reactionPlan demoShuffle 2 ["A", "B"] = ["A", "B", "B", "A"] := by
  refine ⟨?_, ?_, demoShuffle_valid, by rfl, by rfl⟩
  · intro shuffle k classKeys j hj
    rw [ssvepPlan, ssvepPlanAux_eq]
    exact replicate_flatten_block classKeys k j hj
  · intro shuffle hs k classes j hj
    exact reactionPlanAux_block shuffle hs classes k 0 classes (List.Perm.refl _) j hj

/-- Witness for C1: both universal conjuncts applied at a concrete seed. -/
theorem C1_ssvep_plan_blocks_identical_witness :
    planBlock (ssvepPlan demoShuffle 2 ["A", "B"]) 2 1 = ["A", "B"] ∧
    (planBlock (reactionPlan demoShuffle 2 ["A", "B"]) 2 1).Perm ["A", "B"] := by
  constructor
  · have h := C1_ssvep_plan_blocks_identical.1 demoShuffle 2 ["A", "B"] 1
      (by decide)
    simpa using h
  · have h := C1_ssvep_plan_blocks_identical.2.1 demoShuffle
      C1_ssvep_plan_blocks_identical.2.2.1 2 ["A", "B"] 1 (by decide)
    simpa using h

/-- C2: on every exit path of `task_implementation` — normal completion
(`TaskComplete`), cancellation, or any other exception — the `finally`
suite re-enables the task controls exactly once, resets the paradigm's
presentation to its idle visual (SSAEP: cue `...` and muted audio; SSVEP:
cleared stimulus row; reaction: all response buttons disabled via the
inner trial `finally` blocks), and the exit kind propagates unchanged. -/
theorem C2_teardown_on_every_exit_path :
    ∀ (body : List TaskAction) (e : ExitKind) (s : ControlState),
      TaskAction.enableControls ∉ body →
      (((runTaskImplementation ssaepFinallyTrace body e).2 = e) ∧
        ((runTaskImplementation ssaepFinallyTrace body e).1.count
          .enableControls = 1) ∧
        ((applyTrace s
          (runTaskImplementation ssaepFinallyTrace body e).1).controlsDisabled
            = false) ∧
        ((applyTrace s (runTaskImplementation ssaepFinallyTrace body e).1).cue
            = "...") ∧
        ((applyTrace s
          (runTaskImplementation ssaepFinallyTrace body e).1).audioMuted
            = true)) ∧
      (((runTaskImplementation ssvepFinallyTrace body e).2 = e) ∧
        ((runTaskImplementation ssvepFinallyTrace body e).1.count
          .enableControls = 1) ∧
        ((applyTrace s
          (runTaskImplementation ssvepFinallyTrace body e).1).controlsDisabled
            = false) ∧
        ((applyTrace s
          (runTaskImplementation ssvepFinallyTrace body e).1).stimulusShown
            = false)) ∧
      (ReactionBody body → s.centerEnabled = false → s.dirEnabled = [] →
        ((runTaskImplementation reactionFinallyTrace body e).2 = e) ∧
        ((runTaskImplementation reactionFinallyTrace body e).1.count
          .enableControls = 1) ∧
        ((applyTrace s
          (runTaskImplementation reactionFinallyTrace body e).1).controlsDisabled
            = false) ∧
        ((applyTrace s
          (runTaskImplementation reactionFinallyTrace body e).1).centerEnabled
            = false) ∧
        ((applyTrace s
          (runTaskImplementation reactionFinallyTrace body e).1).dirEnabled
            = [])) := by
  intro body e s hb
  have hcount : ∀ fin : List TaskAction,
      (runTaskImplementation fin body e).1.count .enableControls =
        fin.count .enableControls := by
    intro fin
    simp [runTaskImplementation, List.count_cons, List.count_append,
      List.count_eq_zero.mpr hb]
  have hsplit : ∀ fin : List TaskAction,
      applyTrace s (runTaskImplementation fin body e).1 =
        applyTrace (applyTrace (applyAction s .disableControls) body) fin := by
    intro fin
    simp [runTaskImplementation, applyTrace, List.foldl_append]
  refine ⟨⟨rfl, ?_, ?_, ?_, ?_⟩, ⟨rfl, ?_, ?_, ?_⟩, ?_⟩
  · rw [hcount]; rfl
  · rw [hsplit]; rfl
  · rw [hsplit]; rfl
  · rw [hsplit]; rfl
  · rw [hcount]; rfl
  · rw [hsplit]; rfl
  · rw [hsplit]; rfl
  · intro hbody h1 h2
    have hbtn := reactionBody_buttons hbody (applyAction s .disableControls) h1 h2
    refine ⟨rfl, ?_, ?_, ?_, ?_⟩
    · rw [hcount]; rfl
    · rw [hsplit]; rfl
    · rw [hsplit]
      exact hbtn.1
    · rw [hsplit]
      exact hbtn.2

/-- Witness for C2: a concrete cancelled run whose body is an ITI sleep
followed by a timeout-truncated center trial. -/
theorem C2_teardown_on_every_exit_path_witness :
    (((applyTrace
        { controlsDisabled := false, cue := "LEFT", audioMuted := false,
          stimulusShown := true, centerEnabled := false, dirEnabled := [] }
        (runTaskImplementation reactionFinallyTrace
          (TaskAction.sleepStep ::
            (centerTrialScript.take 2 ++ centerTrialFinallyTrace))
          .cancelled).1).controlsDisabled = false)) ∧
    ((applyTrace
        { controlsDisabled := false, cue := "LEFT", audioMuted := false,
          stimulusShown := true, centerEnabled := false, dirEnabled := [] }
        (runTaskImplementation reactionFinallyTrace
          (TaskAction.sleepStep ::
            (centerTrialScript.take 2 ++ centerTrialFinallyTrace))
          .cancelled).1).centerEnabled = false) := by
  have h := C2_teardown_on_every_exit_path
    (TaskAction.sleepStep :: (centerTrialScript.take 2 ++ centerTrialFinallyTrace))
    .cancelled
    { controlsDisabled := false, cue := "LEFT", audioMuted := false,
      stimulusShown := true, centerEnabled := false, dirEnabled := [] }
    (by decide)
  have hbody : ReactionBody
      (TaskAction.sleepStep ::
        (centerTrialScript.take 2 ++ centerTrialFinallyTrace)) :=
    ReactionBody.plain _ _ (Or.inl rfl)
      (by simpa using ReactionBody.center 2 [] ReactionBody.nil)
  have h3 := h.2.2 hbody rfl rfl
  exact ⟨h3.2.2.1, h3.2.2.2.1⟩

/-! ## The reaction run loop: trial records and cancellation

reaction.py 219-248: for each planned trial, sleep the ITI, race the trial
coroutine against `timeout_sec` with `asyncio.wait_for`, then emit one
`SampleTriggerMessage(period = (-delta, 0), value = ...)`.

A trial is summarized by its class and the time (from window start) at
which the button/decode sequence would complete, `none` if never.
`asyncio.wait_for` raises `TimeoutError` iff the inner coroutine has not
finished strictly before the deadline. -/

/-- `SampleTriggerMessage` fields used by the tasks. -/
structure SampleTrigger where
  periodLo : ℚ
  periodHi : ℚ
  value : String
  deriving DecidableEq

def reactionTimedOut (completion : Option ℚ) (timeoutSec : ℚ) : Bool :=
  match completion with
  | none => true
  | some t => decide (timeoutSec ≤ t)

/-- `delta = time.time() - start_time`: the elapsed action-window
duration, i.e. the completion time when the trial finished before the
deadline, and the full timeout otherwise. -/
def reactionDelta (completion : Option ℚ) (timeoutSec : ℚ) : ℚ :=
  match completion with
  | none => timeoutSec
  | some t => if t < timeoutSec then t else timeoutSec

/-- reaction.py 244: `SampleTriggerMessage(period = (-delta, 0), value =
'TIMEOUT' if timeout else trial_class)`. -/
def reactionTrialTrigger (trialClass : String) (completion : Option ℚ)
    (timeoutSec : ℚ) : SampleTrigger :=
  { periodLo := -(reactionDelta completion timeoutSec), periodHi := 0,
    value := if reactionTimedOut completion timeoutSec then "TIMEOUT"
             else trialClass }

/-- The suspension points of the reaction run loop at which an external
cancellation can be delivered. -/
inductive CancelPoint where
  | preRunSleep
  | itiSleep (i : Nat)
  | actionWait (i : Nat)
  | postRunSleep
  deriving DecidableEq

/-- Modelled from the spec: the terminal run states of the base `Task`
class (task.py is not part of src/): a run that finishes its loop
completes, a cancellation at a suspension point propagates to the terminal
ABORTED state. -/
inductive RunOutcome where
  | completed
  | aborted
  deriving DecidableEq

structure RunResult where
  records : List SampleTrigger
  outcome : RunOutcome
  teardownRan : Bool
  deriving DecidableEq

/-- The trial loop of reaction.py 219-245 with an optional cancellation
point: a `CancelledError` delivered at the ITI sleep or during the action
window of trial `i` aborts before that trial's record is yielded. -/
def reactionTrialsLoop (timeoutSec : ℚ) (cancel : Option CancelPoint) :
    Nat → List (String × Option ℚ) → List SampleTrigger × Bool
  | _, [] => ([], false)
  | i, (c, t) :: rest =>
    if cancel = some (.itiSleep i) ∨ cancel = some (.actionWait i) then
      ([], true)
    else
      let r := reactionTrialTrigger c t timeoutSec
      let rec_rest := reactionTrialsLoop timeoutSec cancel (i + 1) rest
      (r :: rec_rest.1, rec_rest.2)

/-- The whole reaction run under an optional cancellation: pre-run sleep,
trial loop, post-run sleep; the `finally` teardown of C2 runs on every
path (modelled by `teardownRan`). -/
def reactionRun (trials : List (String × Option ℚ)) (timeoutSec : ℚ)
    (cancel : Option CancelPoint) : RunResult :=
  if cancel = some .preRunSleep then
    { records := [], outcome := .aborted, teardownRan := true }
  else
    let loop := reactionTrialsLoop timeoutSec cancel 0 trials
    if loop.2 then
      { records := loop.1, outcome := .aborted, teardownRan := true }
    else if cancel = some .postRunSleep then
      { records := loop.1, outcome := .aborted, teardownRan := true }
    else
      { records := loop.1, outcome := .completed, teardownRan := true }

/-- Which trial a cancellation point interrupts, if any. -/
def cancelTrialIdx : CancelPoint → Option Nat
  | .itiSleep i => some i
  | .actionWait i => some i
  | _ => none

lemma reactionTrialsLoop_no_cancel (timeoutSec : ℚ)
    (cancel : Option CancelPoint)
    (h : ∀ i, cancel ≠ some (.itiSleep i) ∧ cancel ≠ some (.actionWait i)) :
    ∀ (trials : List (String × Option ℚ)) (n : Nat),
      reactionTrialsLoop timeoutSec cancel n trials =
        (trials.map (fun p => reactionTrialTrigger p.1 p.2 timeoutSec), false) := by
  intro trials
  induction trials with
  | nil => intro n; rfl
  | cons p rest ih =>
    intro n
    obtain ⟨c, t⟩ := p
    have hn := h n
    simp [reactionTrialsLoop, hn.1, hn.2, ih (n + 1)]

lemma reactionTrialsLoop_cancel_at (timeoutSec : ℚ) (p : CancelPoint)
    (d : Nat) :
    ∀ (trials : List (String × Option ℚ)) (n : Nat),
      cancelTrialIdx p = some (n + d) → d < trials.length →
      reactionTrialsLoop timeoutSec (some p) n trials =
        ((trials.take d).map (fun q => reactionTrialTrigger q.1 q.2 timeoutSec),
          true) := by
  induction d with
  | zero =>
    intro trials n hp hd
    cases trials with
    | nil => simp at hd
    | cons q rest =>
      obtain ⟨c, t⟩ := q
      have hcase : p = .itiSleep n ∨ p = .actionWait n := by
        cases p <;> simp [cancelTrialIdx] at hp <;> simp [hp]
      simp only [reactionTrialsLoop, List.take_zero, List.map_nil]
      rcases hcase with rfl | rfl <;> simp
  | succ d' ih =>
    intro trials n hp hd
    cases trials with
    | nil => simp at hd
    | cons q rest =>
      obtain ⟨c, t⟩ := q
      have hne1 : some p ≠ some (CancelPoint.itiSleep n) := by
        intro hc
        rw [Option.some_inj.mp hc] at hp
        simp [cancelTrialIdx] at hp
      have hne2 : some p ≠ some (CancelPoint.actionWait n) := by
        intro hc
        rw [Option.some_inj.mp hc] at hp
        simp [cancelTrialIdx] at hp
      have hp' : cancelTrialIdx p = some ((n + 1) + d') := by
        rw [hp]; congr 1; omega
      have hd' : d' < rest.length := by
        simpa using hd
      simp only [reactionTrialsLoop, hne1, hne2, or_self, if_neg,
        not_false_eq_true, List.take_succ_cons, List.map_cons]
      simp [ih rest (n + 1) hp' hd']

/-! ## Event traces of the run loops (emission ordering) -/

inductive RunEvent where
  | preRunSleep
  | itiSleep (i : Nat)
  | actionWait (i : Nat)
  | emit (i : Nat) (r : SampleTrigger)
  | trialSleep (i : Nat)
  | feedbackWait (i : Nat)
  | resetQueue
  | postRunSleep
  deriving DecidableEq

/-- One reaction trial, reaction.py 219-245: ITI sleep, the raced action
window, then the yield of the trial's record. -/
def reactionTrialEvents (i : Nat) (c : String) (t : Option ℚ)
    (timeoutSec : ℚ) : List RunEvent :=
  [.itiSleep i, .actionWait i, .emit i (reactionTrialTrigger c t timeoutSec)]

def reactionTrialsEvents (timeoutSec : ℚ) :
    Nat → List (String × Option ℚ) → List RunEvent
  | _, [] => []
  | i, (c, t) :: rest =>
    reactionTrialEvents i c t timeoutSec ++
      reactionTrialsEvents timeoutSec (i + 1) rest

def reactionRunEvents (trials : List (String × Option ℚ))
    (timeoutSec : ℚ) : List RunEvent :=
  .preRunSleep :: reactionTrialsEvents timeoutSec 0 trials ++ [.postRunSleep]

def emitOfTrial (i : Nat) : RunEvent → Bool
  | .emit j _ => j == i
  | _ => false

lemma reaction_emitFilter_out (timeoutSec : ℚ) :
    ∀ (trials : List (String × Option ℚ)) (m i : Nat), i < m →
      (reactionTrialsEvents timeoutSec m trials).filter (emitOfTrial i) = [] := by
  intro trials
  induction trials with
  | nil => intro m i _; rfl
  | cons q rest ih =>
    intro m i hi
    obtain ⟨c, t⟩ := q
    have hmi : (m == i) = false := by
      simp [Nat.ne_of_gt hi]
    simp [reactionTrialsEvents, reactionTrialEvents, List.filter_append,
      emitOfTrial, hmi, ih (m + 1) i (Nat.lt_succ_of_lt hi)]

lemma reaction_emitFilter_at (timeoutSec : ℚ) :
    ∀ (trials : List (String × Option ℚ)) (n d : Nat) (h : d < trials.length),
      (reactionTrialsEvents timeoutSec n trials).filter (emitOfTrial (n + d)) =
        [.emit (n + d)
          (reactionTrialTrigger (trials.get ⟨d, h⟩).1 (trials.get ⟨d, h⟩).2
            timeoutSec)] := by
  intro trials
  induction trials with
  | nil => intro n d h; simp at h
  | cons q rest ih =>
    intro n d h
    obtain ⟨c, t⟩ := q
    cases d with
    | zero =>
      have hout := reaction_emitFilter_out timeoutSec rest (n + 1) n
        (Nat.lt_succ_self n)
      simp [reactionTrialsEvents, reactionTrialEvents, List.filter_append,
        emitOfTrial, hout]
    | succ d' =>
      have hd' : d' < rest.length := by simpa using h
      have hih := ih (n + 1) d' hd'
      rw [show n + (d' + 1) = (n + 1) + d' from by omega]
      simp only [reactionTrialsEvents, reactionTrialEvents, List.filter_append,
        List.filter_cons, List.filter_nil, emitOfTrial, hih]
      have hne : (n == (n + 1) + d') = false := by
        simp only [beq_eq_false_iff_ne]
        omega
      simp [emitOfTrial, hne, List.get]

lemma reaction_trial_block_sublist (timeoutSec : ℚ) :
    ∀ (trials : List (String × Option ℚ)) (n d : Nat) (h : d < trials.length),
      List.Sublist
        (reactionTrialEvents (n + d) (trials.get ⟨d, h⟩).1
          (trials.get ⟨d, h⟩).2 timeoutSec)
        (reactionTrialsEvents timeoutSec n trials) := by
  intro trials
  induction trials with
  | nil => intro n d h; simp at h
  | cons q rest ih =>
    intro n d h
    obtain ⟨c, t⟩ := q
    cases d with
    | zero =>
      simp only [reactionTrialsEvents, List.get, Nat.add_zero]
      exact List.sublist_append_left
        (reactionTrialEvents n c t timeoutSec)
        (reactionTrialsEvents timeoutSec (n + 1) rest)
    | succ d' =>
      have hd' : d' < rest.length := by simpa using h
      have hih := ih (n + 1) d' hd'
      rw [show n + (d' + 1) = (n + 1) + d' from by omega]
      exact hih.trans
        (List.sublist_append_right (reactionTrialEvents n c t timeoutSec) _)

/-- C5: in the raced reaction paradigm exactly one record is emitted for
trial `i`, the emission happens after the action-window wait, the value is
the TIMEOUT sentinel precisely when no completion fired strictly before
the deadline and the trial's class otherwise, and the record's window is
`(-delta, 0)` where `delta` is the elapsed window duration. -/
theorem C5_reaction_record_content_and_order :
    ∀ (trials : List (String × Option ℚ)) (timeoutSec : ℚ),
      (∀ (i : Nat) (h : i < trials.length),
        (reactionRunEvents trials timeoutSec).filter (emitOfTrial i) =
          [.emit i (reactionTrialTrigger (trials.get ⟨i, h⟩).1
            (trials.get ⟨i, h⟩).2 timeoutSec)] ∧
        List.Sublist
          [RunEvent.actionWait i,
            .emit i (reactionTrialTrigger (trials.get ⟨i, h⟩).1
              (trials.get ⟨i, h⟩).2 timeoutSec)]
          (reactionRunEvents trials timeoutSec)) ∧
      (∀ (c : String) (t : Option ℚ),
        ((reactionTrialTrigger c t timeoutSec).value = "TIMEOUT" ∨
          (reactionTrialTrigger c t timeoutSec).value = c) ∧
        (c ≠ "TIMEOUT" →
          ((reactionTrialTrigger c t timeoutSec).value = "TIMEOUT" ↔
            ∀ tc, t = some tc → timeoutSec ≤ tc)) ∧
        (reactionTrialTrigger c t timeoutSec).periodLo =
          -(reactionDelta t timeoutSec) ∧
        (reactionTrialTrigger c t timeoutSec).periodHi = 0 ∧
        (∀ tc, t = some tc → tc < timeoutSec →
          reactionDelta t timeoutSec = tc) ∧
        ((∀ tc, t = some tc → timeoutSec ≤ tc) →
          reactionDelta t timeoutSec = timeoutSec)) := by
  intro trials timeoutSec
  constructor
  · intro i h
    constructor
    · have hfilt := reaction_emitFilter_at timeoutSec trials 0 i h
      simp only [Nat.zero_add] at hfilt
      simp [reactionRunEvents, List.filter_append, emitOfTrial, hfilt]
    · have hblock := reaction_trial_block_sublist timeoutSec trials 0 i h
      simp only [Nat.zero_add] at hblock
      have hsub : List.Sublist
          [RunEvent.actionWait i,
            .emit i (reactionTrialTrigger (trials.get ⟨i, h⟩).1
              (trials.get ⟨i, h⟩).2 timeoutSec)]
          (reactionTrialEvents i (trials.get ⟨i, h⟩).1 (trials.get ⟨i, h⟩).2
            timeoutSec) :=
        List.sublist_cons_self _ _
      refine (hsub.trans hblock).trans ?_
      refine List.Sublist.trans ?_ (List.sublist_cons_self RunEvent.preRunSleep _)
      exact List.sublist_append_left _ _
  · intro c t
    refine ⟨?_, ?_, rfl, rfl, ?_, ?_⟩
    · unfold reactionTrialTrigger
      by_cases hb : reactionTimedOut t timeoutSec = true <;> simp [hb]
    · intro hc
      unfold reactionTrialTrigger reactionTimedOut
      cases t with
      | none => simp
      | some tc =>
        by_cases hlt : timeoutSec ≤ tc <;> simp [hlt, hc]
    · intro tc ht hlt
      subst ht
      simp [reactionDelta, hlt]
    · intro hall
      cases t with
      | none => rfl
      | some tc =>
        have := hall tc rfl
        simp [reactionDelta, not_lt.mpr this]

/-- Witness for C5 at a concrete run: two trials, the first completing at
time 1 of a 4-second window, the second never completing. -/
theorem C5_reaction_record_content_and_order_witness :
    (reactionRunEvents [("A", some 1), ("B", none)] 4).filter (emitOfTrial 1) =
      [.emit 1 (reactionTrialTrigger "B" none 4)] ∧
    (reactionTrialTrigger "B" none 4).value = "TIMEOUT" ∧
    (reactionTrialTrigger "A" (some 1) 4).value = "A" ∧
    (reactionTrialTrigger "A" (some 1) 4).periodLo = -1 := by
  have h := C5_reaction_record_content_and_order [("A", some 1), ("B", none)] 4
  refine ⟨?_, ?_, ?_, ?_⟩
  · have h1 := (h.1 1 (by decide)).1
    simpa using h1
  · have h2 := ((h.2 "B" none).2.1 (by decide)).mpr (by intro tc htc; cases htc)
    exact h2
  · have h3 := (h.2 "A" (some 1)).1
    rcases h3 with h3 | h3
    · have h4 := (h.2 "A" (some 1)).2.1 (by decide)
      have h5 := h4.mp h3 1 rfl
      norm_num at h5
    · exact h3
  · have h6 := (h.2 "A" (some 1)).2.2.1
    have h7 := (h.2 "A" (some 1)).2.2.2.2.1 1 rfl (by norm_num)
    rw [h6, h7]

/-! ## Fixed-duration (stimulus-paradigm) runs: SSAEP and SSVEP

ssaep.py 236-259 and ssvep/task.py 231-323: each trial sleeps the ITI,
sets up the stimulus, yields the trial record with `period = (0.0,
trial_dur)` and `value = trial_class`, then sleeps for `trial_dur`; the
SSVEP variant optionally waits for decode feedback afterwards, and resets
its decode queue once, right after the pre-run sleep (line 229). -/

/-- ssaep.py 252-257 / ssvep/task.py 292-297: the record emitted at the
start of the action window. -/
def stimTrialTrigger (c : String) (trialDur : ℚ) : SampleTrigger :=
  { periodLo := 0, periodHi := trialDur, value := c }

def stimTrialEvents (feedback : Bool) (trialDur : ℚ) (i : Nat) (c : String) :
    List RunEvent :=
  [.itiSleep i, .emit i (stimTrialTrigger c trialDur), .trialSleep i] ++
    (if feedback then [.feedbackWait i] else [])

def stimTrialsEvents (feedback : Bool) (trialDur : ℚ) :
    Nat → List String → List RunEvent
  | _, [] => []
  | i, c :: rest =>
    stimTrialEvents feedback trialDur i c ++
      stimTrialsEvents feedback trialDur (i + 1) rest

def ssaepRunEvents (trials : List String) (trialDur : ℚ) : List RunEvent :=
  .preRunSleep :: stimTrialsEvents false trialDur 0 trials ++ [.postRunSleep]

def ssvepRunEvents (trials : List String) (feedback : Bool)
    (trialDur : ℚ) : List RunEvent :=
  .preRunSleep :: .resetQueue ::
    stimTrialsEvents feedback trialDur 0 trials ++ [.postRunSleep]

lemma stim_emitFilter_out (feedback : Bool) (trialDur : ℚ) :
    ∀ (trials : List String) (m i : Nat), i < m →
      (stimTrialsEvents feedback trialDur m trials).filter (emitOfTrial i)
        = [] := by
  intro trials
  induction trials with
  | nil => intro m i _; rfl
  | cons c rest ih =>
    intro m i hi
    have hmi : (m == i) = false := by simp [Nat.ne_of_gt hi]
    cases feedback <;>
      simp [stimTrialsEvents, stimTrialEvents, List.filter_append, emitOfTrial,
        hmi, ih (m + 1) i (Nat.lt_succ_of_lt hi)]

lemma stim_emitFilter_at (feedback : Bool) (trialDur : ℚ) :
    ∀ (trials : List String) (n d : Nat) (h : d < trials.length),
      (stimTrialsEvents feedback trialDur n trials).filter
          (emitOfTrial (n + d)) =
        [.emit (n + d) (stimTrialTrigger (trials.get ⟨d, h⟩) trialDur)] := by
  intro trials
  induction trials with
  | nil => intro n d h; simp at h
  | cons c rest ih =>
    intro n d h
    cases d with
    | zero =>
      have hout := stim_emitFilter_out feedback trialDur rest (n + 1) n
        (Nat.lt_succ_self n)
      cases feedback <;>
        simp [stimTrialsEvents, stimTrialEvents, List.filter_append,
          emitOfTrial, hout]
    | succ d' =>
      have hd' : d' < rest.length := by simpa using h
      have hih := ih (n + 1) d' hd'
      rw [show n + (d' + 1) = (n + 1) + d' from by omega]
      have hne : (n == (n + 1) + d') = false := by
        simp only [beq_eq_false_iff_ne]
        omega
      cases feedback <;>
        simp [stimTrialsEvents, stimTrialEvents, List.filter_append,
          List.filter_cons, emitOfTrial, hne, hih, List.get]

lemma stim_trial_block_sublist (feedback : Bool) (trialDur : ℚ) :
    ∀ (trials : List String) (n d : Nat) (h : d < trials.length),
      List.Sublist (stimTrialEvents feedback trialDur (n + d)
          (trials.get ⟨d, h⟩))
        (stimTrialsEvents feedback trialDur n trials) := by
  intro trials
  induction trials with
  | nil => intro n d h; simp at h
  | cons c rest ih =>
    intro n d h
    cases d with
    | zero =>
      simp only [stimTrialsEvents, List.get, Nat.add_zero]
      exact List.sublist_append_left _ _
    | succ d' =>
      have hd' : d' < rest.length := by simpa using h
      have hih := ih (n + 1) d' hd'
      rw [show n + (d' + 1) = (n + 1) + d' from by omega]
      exact hih.trans (List.sublist_append_right _ _)

/-- C6: in the fixed-duration paradigms (SSAEP and SSVEP) exactly one
record per trial is emitted, the emission precedes the trial-duration
sleep (record at the START of the action window), and the record carries
window `(0.0, trialDuration)` and the planned class as its value — never
the TIMEOUT sentinel, so its completion kind is NORMAL. -/
theorem C6_stimulus_record_at_window_start :
    ∀ (trials : List String) (feedback : Bool) (trialDur : ℚ) (i : Nat)
      (h : i < trials.length),
      ((ssaepRunEvents trials trialDur).filter (emitOfTrial i) =
        [.emit i (stimTrialTrigger (trials.get ⟨i, h⟩) trialDur)]) ∧
      ((ssvepRunEvents trials feedback trialDur).filter (emitOfTrial i) =
        [.emit i (stimTrialTrigger (trials.get ⟨i, h⟩) trialDur)]) ∧
      List.Sublist
        [RunEvent.emit i (stimTrialTrigger (trials.get ⟨i, h⟩) trialDur),
          .trialSleep i]
        (ssaepRunEvents trials trialDur) ∧
      List.Sublist
        [RunEvent.emit i (stimTrialTrigger (trials.get ⟨i, h⟩) trialDur),
          .trialSleep i]
        (ssvepRunEvents trials feedback trialDur) ∧
      (stimTrialTrigger (trials.get ⟨i, h⟩) trialDur).periodLo = 0 ∧
      (stimTrialTrigger (trials.get ⟨i, h⟩) trialDur).periodHi = trialDur ∧
      (stimTrialTrigger (trials.get ⟨i, h⟩) trialDur).value =
        trials.get ⟨i, h⟩ ∧
      (trials.get ⟨i, h⟩ ≠ "TIMEOUT" →
        (stimTrialTrigger (trials.get ⟨i, h⟩) trialDur).value ≠ "TIMEOUT") := by
  intro trials feedback trialDur i h
  have hfa : ∀ fb : Bool,
      (stimTrialsEvents fb trialDur 0 trials).filter (emitOfTrial i) =
        [.emit i (stimTrialTrigger (trials.get ⟨i, h⟩) trialDur)] := by
    intro fb
    have := stim_emitFilter_at fb trialDur trials 0 i h
    simpa using this
  have hinner : ∀ fb : Bool,
      List.Sublist
        [RunEvent.emit i (stimTrialTrigger (trials.get ⟨i, h⟩) trialDur),
          .trialSleep i]
        (stimTrialEvents fb trialDur i (trials.get ⟨i, h⟩)) := by
    intro fb
    refine List.Sublist.trans ?_ (List.sublist_cons_self (RunEvent.itiSleep i) _)
    show List.Sublist _
      ([RunEvent.emit i (stimTrialTrigger (trials.get ⟨i, h⟩) trialDur),
        .trialSleep i] ++ (if fb then [RunEvent.feedbackWait i] else []))
    exact List.sublist_append_left _ _
  have hblock : ∀ fb : Bool,
      List.Sublist (stimTrialEvents fb trialDur i (trials.get ⟨i, h⟩))
        (stimTrialsEvents fb trialDur 0 trials) := by
    intro fb
    have := stim_trial_block_sublist fb trialDur trials 0 i h
    simpa using this
  refine ⟨?_, ?_, ?_, ?_, rfl, rfl, rfl, fun hc => hc⟩
  · simp [ssaepRunEvents, List.filter_append, emitOfTrial, hfa false]
  · simp [ssvepRunEvents, List.filter_append, emitOfTrial, hfa feedback]
  · refine List.Sublist.trans ((hinner false).trans (hblock false)) ?_
    refine List.Sublist.trans ?_ (List.sublist_cons_self RunEvent.preRunSleep _)
    exact List.sublist_append_left _ _
  · refine List.Sublist.trans ((hinner feedback).trans (hblock feedback)) ?_
    refine List.Sublist.trans ?_ (List.sublist_cons_self RunEvent.preRunSleep _)
    refine List.Sublist.trans ?_ (List.sublist_cons_self RunEvent.resetQueue _)
    exact List.sublist_append_left _ _

/-- Witness for C6 at a concrete two-class SSVEP run with feedback. -/
theorem C6_stimulus_record_at_window_start_witness :
    ((ssvepRunEvents ["A", "B"] true 4).filter (emitOfTrial 1) =
      [.emit 1 (stimTrialTrigger "B" 4)]) ∧
    (stimTrialTrigger "B" 4).periodLo = 0 ∧
    (stimTrialTrigger "B" 4).periodHi = 4 ∧
    (stimTrialTrigger "B" 4).value = "B" := by
  have h := C6_stimulus_record_at_window_start ["A", "B"] true 4 1 (by decide)
  exact ⟨h.2.1, h.2.2.2.2.1, h.2.2.2.2.2.1, h.2.2.2.2.2.2.1⟩

/-! ## Cancellation in the fixed-duration runs

ssaep.py 236-259 and ssvep/task.py 231-323 share the loop shape: ITI
sleep, (SSVEP only: a 1-second stimulus-onboarding sleep), the yield of
the trial's record, the trial-duration sleep, and (SSVEP with feedback
enabled) the feedback waits (two 0.5-second sleeps around the bounded
decode wait).  The record of trial `i` is yielded BEFORE the trial sleep,
so a cancellation during that sleep or during feedback arrives after
trial `i`'s record is already out; no record is emitted after the
cancellation.  The SSAEP run is the `feedback = false` instance and has
no stimulus-setup sleep. -/

/-- The suspension points of a fixed-duration run. -/
inductive StimCancelPoint where
  | preRunSleep
  | itiSleep (i : Nat)
  | stimSetupSleep (i : Nat)
  | trialSleep (i : Nat)
  | feedbackWait (i : Nat)
  | postRunSleep
  deriving DecidableEq

/-- Points that interrupt trial `i` before its record is yielded. -/
def stimCancelBeforeIdx : StimCancelPoint → Option Nat
  | .itiSleep i => some i
  | .stimSetupSleep i => some i
  | _ => none

/-- Points that interrupt trial `i` after its record is yielded. -/
def stimCancelAfterIdx : StimCancelPoint → Option Nat
  | .trialSleep i => some i
  | .feedbackWait i => some i
  | _ => none

/-- The fixed-duration trial loop under an optional cancellation: a
`CancelledError` at the ITI or setup sleep of trial `i` aborts before its
record, one at the trial sleep or (feedback-enabled) feedback wait aborts
after it. -/
def stimTrialsLoop (trialDur : ℚ) (feedback : Bool)
    (cancel : Option StimCancelPoint) :
    Nat → List String → List SampleTrigger × Bool
  | _, [] => ([], false)
  | i, c :: rest =>
    if cancel = some (.itiSleep i) ∨ cancel = some (.stimSetupSleep i) then
      ([], true)
    else if cancel = some (.trialSleep i) ∨
        (feedback = true ∧ cancel = some (.feedbackWait i)) then
      ([stimTrialTrigger c trialDur], true)
    else
      let rest2 := stimTrialsLoop trialDur feedback cancel (i + 1) rest
      (stimTrialTrigger c trialDur :: rest2.1, rest2.2)

/-- A whole fixed-duration run under an optional cancellation, with the
teardown of C2 on every path. -/
def stimRun (trials : List String) (trialDur : ℚ) (feedback : Bool)
    (cancel : Option StimCancelPoint) : RunResult :=
  if cancel = some .preRunSleep then
    { records := [], outcome := .aborted, teardownRan := true }
  else
    let loop := stimTrialsLoop trialDur feedback cancel 0 trials
    if loop.2 then
      { records := loop.1, outcome := .aborted, teardownRan := true }
    else if cancel = some .postRunSleep then
      { records := loop.1, outcome := .aborted, teardownRan := true }
    else
      { records := loop.1, outcome := .completed, teardownRan := true }

lemma stimTrialsLoop_no_cancel (trialDur : ℚ) (feedback : Bool)
    (cancel : Option StimCancelPoint)
    (h : ∀ i, cancel ≠ some (.itiSleep i) ∧
      cancel ≠ some (.stimSetupSleep i) ∧ cancel ≠ some (.trialSleep i) ∧
      ¬(feedback = true ∧ cancel = some (.feedbackWait i))) :
    ∀ (trials : List String) (n : Nat),
      stimTrialsLoop trialDur feedback cancel n trials =
        (trials.map (fun c => stimTrialTrigger c trialDur), false) := by
  intro trials
  induction trials with
  | nil => intro n; rfl
  | cons c rest ih =>
    intro n
    have hn := h n
    simp [stimTrialsLoop, hn.1, hn.2.1, hn.2.2.1, hn.2.2.2, ih (n + 1)]

lemma stimTrialsLoop_cancel_before (trialDur : ℚ) (feedback : Bool)
    (p : StimCancelPoint) (d : Nat) :
    ∀ (trials : List String) (n : Nat),
      stimCancelBeforeIdx p = some (n + d) → d < trials.length →
      stimTrialsLoop trialDur feedback (some p) n trials =
        ((trials.take d).map (fun c => stimTrialTrigger c trialDur), true) := by
  induction d with
  | zero =>
    intro trials n hp hd
    cases trials with
    | nil => simp at hd
    | cons c rest =>
      have hcase : p = .itiSleep n ∨ p = .stimSetupSleep n := by
        cases p <;> simp [stimCancelBeforeIdx] at hp <;> simp [hp]
      simp only [stimTrialsLoop, List.take_zero, List.map_nil]
      rcases hcase with rfl | rfl <;> simp
  | succ d' ih =>
    intro trials n hp hd
    cases trials with
    | nil => simp at hd
    | cons c rest =>
      have hne1 : some p ≠ some (StimCancelPoint.itiSleep n) := by
        intro hc
        rw [Option.some_inj.mp hc] at hp
        simp [stimCancelBeforeIdx] at hp
      have hne2 : some p ≠ some (StimCancelPoint.stimSetupSleep n) := by
        intro hc
        rw [Option.some_inj.mp hc] at hp
        simp [stimCancelBeforeIdx] at hp
      have hne3 : some p ≠ some (StimCancelPoint.trialSleep n) := by
        intro hc
        rw [Option.some_inj.mp hc] at hp
        simp [stimCancelBeforeIdx] at hp
      have hne4 : ¬(feedback = true ∧
          some p = some (StimCancelPoint.feedbackWait n)) := by
        rintro ⟨_, hc⟩
        rw [Option.some_inj.mp hc] at hp
        simp [stimCancelBeforeIdx] at hp
      have hp' : stimCancelBeforeIdx p = some ((n + 1) + d') := by
        rw [hp]; congr 1; omega
      have hd' : d' < rest.length := by simpa using hd
      simp only [stimTrialsLoop, hne1, hne2, or_self, if_neg,
        not_false_eq_true, hne3, hne4, List.take_succ_cons, List.map_cons]
      simp [hne1, hne2, hne3, hne4, ih rest (n + 1) hp' hd']

lemma stimTrialsLoop_cancel_after (trialDur : ℚ) (feedback : Bool)
    (p : StimCancelPoint) (d : Nat)
    (hfb : ∀ j, p = .feedbackWait j → feedback = true) :
    ∀ (trials : List String) (n : Nat),
      stimCancelAfterIdx p = some (n + d) → d < trials.length →
      stimTrialsLoop trialDur feedback (some p) n trials =
        ((trials.take (d + 1)).map (fun c => stimTrialTrigger c trialDur),
          true) := by
  induction d with
  | zero =>
    intro trials n hp hd
    cases trials with
    | nil => simp at hd
    | cons c rest =>
      have hcase : p = .trialSleep n ∨ p = .feedbackWait n := by
        cases p <;> simp [stimCancelAfterIdx] at hp <;> simp [hp]
      have hne1 : some p ≠ some (StimCancelPoint.itiSleep n) := by
        rcases hcase with rfl | rfl <;> simp
      have hne2 : some p ≠ some (StimCancelPoint.stimSetupSleep n) := by
        rcases hcase with rfl | rfl <;> simp
      have hsecond : some p = some (StimCancelPoint.trialSleep n) ∨
          (feedback = true ∧ some p = some (StimCancelPoint.feedbackWait n)) := by
        rcases hcase with rfl | rfl
        · exact Or.inl rfl
        · exact Or.inr ⟨hfb n rfl, rfl⟩
      simp only [stimTrialsLoop]
      rw [if_neg (not_or.mpr ⟨hne1, hne2⟩), if_pos hsecond]
      simp
  | succ d' ih =>
    intro trials n hp hd
    cases trials with
    | nil => simp at hd
    | cons c rest =>
      have hne1 : some p ≠ some (StimCancelPoint.itiSleep n) := by
        intro hc
        rw [Option.some_inj.mp hc] at hp
        simp [stimCancelAfterIdx] at hp
      have hne2 : some p ≠ some (StimCancelPoint.stimSetupSleep n) := by
        intro hc
        rw [Option.some_inj.mp hc] at hp
        simp [stimCancelAfterIdx] at hp
      have hne3 : some p ≠ some (StimCancelPoint.trialSleep n) := by
        intro hc
        rw [Option.some_inj.mp hc] at hp
        simp [stimCancelAfterIdx] at hp
      have hne4 : ¬(feedback = true ∧
          some p = some (StimCancelPoint.feedbackWait n)) := by
        rintro ⟨_, hc⟩
        rw [Option.some_inj.mp hc] at hp
        simp [stimCancelAfterIdx] at hp
      have hp' : stimCancelAfterIdx p = some ((n + 1) + d') := by
        rw [hp]; congr 1; omega
      have hd' : d' < rest.length := by simpa using hd
      simp only [stimTrialsLoop, hne1, hne2, or_self, if_neg,
        not_false_eq_true, hne3, hne4, List.take_succ_cons, List.map_cons]
      simp [hne1, hne2, hne3, hne4, ih rest (n + 1) hp' hd']

/-- C3: a cancellation delivered at any suspension point of any run —
reaction: pre-run sleep, ITI sleep, action-window wait, post-run sleep;
SSAEP/SSVEP: pre-run sleep, ITI sleep, stimulus-setup sleep, trial-
duration sleep, feedback wait, post-run sleep — drives that run to the
terminal ABORTED outcome with teardown still executed, and no record for
the interrupted or any later trial is emitted after the cancellation: the
emitted records are exactly those already yielded before the cancellation
point (in the fixed-duration paradigms the interrupted trial's record is
among them when the cancellation lands at or after its trial sleep,
because the record precedes that sleep).  (The ABORTED terminal state
itself lives in the base Task class, which is not in src/, and is
modelled from the spec.) -/
theorem C3_cancellation_aborts_and_stops_records :
    ∀ (trials : List (String × Option ℚ)) (timeoutSec : ℚ)
      (strials : List String) (trialDur : ℚ) (fb : Bool),
      (reactionRun trials timeoutSec (some .preRunSleep) =
        { records := [], outcome := .aborted, teardownRan := true }) ∧
      (∀ (p : CancelPoint) (i : Nat), cancelTrialIdx p = some i →
        i < trials.length →
        reactionRun trials timeoutSec (some p) =
          { records := (trials.take i).map
              (fun q => reactionTrialTrigger q.1 q.2 timeoutSec),
            outcome := .aborted, teardownRan := true }) ∧
      (reactionRun trials timeoutSec (some .postRunSleep) =
        { records := trials.map (fun q => reactionTrialTrigger q.1 q.2 timeoutSec),
          outcome := .aborted, teardownRan := true }) ∧
      (reactionRun trials timeoutSec none =
        { records := trials.map (fun q => reactionTrialTrigger q.1 q.2 timeoutSec),
          outcome := .completed, teardownRan := true }) ∧
      (stimRun strials trialDur fb (some .preRunSleep) =
        { records := [], outcome := .aborted, teardownRan := true }) ∧
      (∀ (p : StimCancelPoint) (i : Nat), stimCancelBeforeIdx p = some i →
        i < strials.length →
        stimRun strials trialDur fb (some p) =
          { records := (strials.take i).map
              (fun c => stimTrialTrigger c trialDur),
            outcome := .aborted, teardownRan := true }) ∧
      (∀ (p : StimCancelPoint) (i : Nat), stimCancelAfterIdx p = some i →
        (∀ j, p = .feedbackWait j → fb = true) →
        i < strials.length →
        stimRun strials trialDur fb (some p) =
          { records := (strials.take (i + 1)).map
              (fun c => stimTrialTrigger c trialDur),
            outcome := .aborted, teardownRan := true }) ∧
      (stimRun strials trialDur fb (some .postRunSleep) =
        { records := strials.map (fun c => stimTrialTrigger c trialDur),
          outcome := .aborted, teardownRan := true }) ∧
      (stimRun strials trialDur fb none =
        { records := strials.map (fun c => stimTrialTrigger c trialDur),
          outcome := .completed, teardownRan := true }) := by
  intro trials timeoutSec strials trialDur fb
  refine ⟨by simp [reactionRun], ?_, ?_, ?_, by simp [stimRun], ?_, ?_, ?_, ?_⟩
  · intro p i hp hi
    have hne : some p ≠ some CancelPoint.preRunSleep := by
      intro hc
      rw [Option.some_inj.mp hc] at hp
      simp [cancelTrialIdx] at hp
    have hloop := reactionTrialsLoop_cancel_at timeoutSec p i trials 0
      (by simpa using hp) hi
    simp only [Nat.zero_add] at hloop
    simp [reactionRun, hne, hloop]
  · have hloop := reactionTrialsLoop_no_cancel timeoutSec
      (some CancelPoint.postRunSleep) (by intro i; exact ⟨by simp, by simp⟩)
      trials 0
    simp [reactionRun, hloop]
  · have hloop := reactionTrialsLoop_no_cancel timeoutSec none
      (by intro i; exact ⟨by simp, by simp⟩) trials 0
    simp [reactionRun, hloop]
  · intro p i hp hi
    have hne : some p ≠ some StimCancelPoint.preRunSleep := by
      intro hc
      rw [Option.some_inj.mp hc] at hp
      simp [stimCancelBeforeIdx] at hp
    have hloop := stimTrialsLoop_cancel_before trialDur fb p i strials 0
      (by simpa using hp) hi
    simp only [Nat.zero_add] at hloop
    simp [stimRun, hne, hloop]
  · intro p i hp hfb hi
    have hne : some p ≠ some StimCancelPoint.preRunSleep := by
      intro hc
      rw [Option.some_inj.mp hc] at hp
      simp [stimCancelAfterIdx] at hp
    have hloop := stimTrialsLoop_cancel_after trialDur fb p i hfb strials 0
      (by simpa using hp) hi
    simp only [Nat.zero_add] at hloop
    simp [stimRun, hne, hloop]
  · have hloop := stimTrialsLoop_no_cancel trialDur fb
      (some StimCancelPoint.postRunSleep)
      (by intro i; exact ⟨by simp, by simp, by simp, by simp⟩) strials 0
    simp [stimRun, hloop]
  · have hloop := stimTrialsLoop_no_cancel trialDur fb none
      (by intro i; exact ⟨by simp, by simp, by simp, by simp⟩) strials 0
    simp [stimRun, hloop]

/-- Witness for C3: the spec's end-to-end scenario 4 — cancellation during
the ITI sleep of trial 3 of 5 in a reaction run yields ABORTED with
exactly the two records of trials 1-2 — and a feedback-enabled SSVEP run
of three trials cancelled during trial 1's feedback wait yields ABORTED
with exactly trial 1's record, already emitted before the wait. -/
theorem C3_cancellation_aborts_and_stops_records_witness :
    reactionRun
        [("A", none), ("B", some 1), ("C", none), ("D", none), ("E", none)]
        4 (some (.itiSleep 2)) =
      { records := [reactionTrialTrigger "A" none 4,
                    reactionTrialTrigger "B" (some 1) 4],
        outcome := .aborted, teardownRan := true } ∧
    stimRun ["A", "B", "C"] 4 true (some (.feedbackWait 0)) =
      { records := [stimTrialTrigger "A" 4],
        outcome := .aborted, teardownRan := true } := by
  constructor
  · have h := (C3_cancellation_aborts_and_stops_records
      [("A", none), ("B", some 1), ("C", none), ("D", none), ("E", none)]
      4 ["A", "B", "C"] 4 true).2.1 (.itiSleep 2) 2 rfl (by decide)
    simpa using h
  · have h := (C3_cancellation_aborts_and_stops_records
      [("A", none), ("B", some 1), ("C", none), ("D", none), ("E", none)]
      4 ["A", "B", "C"] 4 true).2.2.2.2.2.2.1 (.feedbackWait 0) 0 rfl
      (fun j _ => rfl) (by decide)
    simpa using h

/-! ## The SSVEP decode inbox

`on_class_input` enqueues every inbound `FrequencyDecodeMessage` into
`self.STATE.input_decode`; task_implementation replaces the queue with a
fresh one right after the pre-run sleep (line 229), and each feedback step
awaits a single `input_decode.get()` (line 309).  Messages are modelled as
ids tagged with the position (step index in the run's event list) at which
they arrived. -/

def isSuspension : RunEvent → Bool
  | .preRunSleep => true
  | .itiSleep _ => true
  | .actionWait _ => true
  | .trialSleep _ => true
  | .feedbackWait _ => true
  | .postRunSleep => true
  | .emit _ _ => false
  | .resetQueue => false

/-- Effect of one run event on the decode queue: arrivals during a
suspension are appended (tagged with the current position), `resetQueue`
replaces the queue with a fresh empty one, and a feedback wait consumes
exactly the head, leaving the backlog.  Returns the new queue and the
consumed message, if any. -/
def queueStep (arrivals : Nat → List Nat) (pos : Nat) (q : List (Nat × Nat)) :
    RunEvent → List (Nat × Nat) × Option (Nat × Nat)
  | .resetQueue => ([], none)
  | .feedbackWait _ =>
    let q1 := q ++ (arrivals pos).map (fun m => (pos, m))
    (q1.drop 1, q1.head?)
  | e =>
    (if isSuspension e then q ++ (arrivals pos).map (fun m => (pos, m)) else q,
      none)

/-- Runs the queue semantics over an event list, returning the final queue
and the list of consumed (tagged) messages. -/
def queueRun (arrivals : Nat → List Nat) :
    List RunEvent → Nat → List (Nat × Nat) →
      List (Nat × Nat) × List (Nat × Nat)
  | [], _, q => (q, [])
  | e :: rest, pos, q =>
    let st := queueStep arrivals pos q e
    let r := queueRun arrivals rest (pos + 1) st.1
    (r.1, match st.2 with
          | some x => x :: r.2
          | none => r.2)

lemma queueStep_tags (arrivals : Nat → List Nat) (pos : Nat)
    (q : List (Nat × Nat)) (e : RunEvent) (c : Nat) (hc : c ≤ pos)
    (hq : ∀ x ∈ q, c ≤ x.1) :
    (∀ x ∈ (queueStep arrivals pos q e).1, c ≤ x.1) ∧
    (∀ x, (queueStep arrivals pos q e).2 = some x → c ≤ x.1) := by
  have hq1 : ∀ x ∈ q ++ (arrivals pos).map (fun m => (pos, m)), c ≤ x.1 := by
    intro x hx
    rcases List.mem_append.mp hx with hx | hx
    · exact hq x hx
    · obtain ⟨m, _, rfl⟩ := List.mem_map.mp hx
      exact hc
  cases e with
  | resetQueue => exact ⟨by intro x hx; simp [queueStep] at hx, by
      intro x hx; simp [queueStep] at hx⟩
  | feedbackWait i =>
    constructor
    · intro x hx
      exact hq1 x (List.mem_of_mem_drop hx)
    · intro x hx
      simp only [queueStep] at hx
      exact hq1 x (List.mem_of_mem_head? hx)
  | preRunSleep => exact ⟨fun x hx => hq1 x (by simpa [queueStep, isSuspension] using hx),
      by intro x hx; simp [queueStep] at hx⟩
  | itiSleep i => exact ⟨fun x hx => hq1 x (by simpa [queueStep, isSuspension] using hx),
      by intro x hx; simp [queueStep] at hx⟩
  | actionWait i => exact ⟨fun x hx => hq1 x (by simpa [queueStep, isSuspension] using hx),
      by intro x hx; simp [queueStep] at hx⟩
  | trialSleep i => exact ⟨fun x hx => hq1 x (by simpa [queueStep, isSuspension] using hx),
      by intro x hx; simp [queueStep] at hx⟩
  | postRunSleep => exact ⟨fun x hx => hq1 x (by simpa [queueStep, isSuspension] using hx),
      by intro x hx; simp [queueStep] at hx⟩
  | emit i r => exact ⟨fun x hx => hq x (by simpa [queueStep, isSuspension] using hx),
      by intro x hx; simp [queueStep] at hx⟩

lemma queueRun_tags (arrivals : Nat → List Nat) :
    ∀ (events : List RunEvent) (pos : Nat) (q : List (Nat × Nat)) (c : Nat),
      c ≤ pos → (∀ x ∈ q, c ≤ x.1) →
      (∀ x ∈ (queueRun arrivals events pos q).1, c ≤ x.1) ∧
      (∀ x ∈ (queueRun arrivals events pos q).2, c ≤ x.1) := by
  intro events
  induction events with
  | nil =>
    intro pos q c hc hq
    exact ⟨hq, by intro x hx; simp [queueRun] at hx⟩
  | cons e rest ih =>
    intro pos q c hc hq
    have hstep := queueStep_tags arrivals pos q e c hc hq
    have hrec := ih (pos + 1) (queueStep arrivals pos q e).1 c
      (Nat.le_succ_of_le hc) hstep.1
    constructor
    · intro x hx
      exact hrec.1 x hx
    · intro x hx
      simp only [queueRun] at hx
      rcases hcons : (queueStep arrivals pos q e).2 with _ | y
      · rw [hcons] at hx
        exact hrec.2 x hx
      · rw [hcons] at hx
        rcases List.mem_cons.mp hx with rfl | hx
        · exact hstep.2 x hcons
        · exact hrec.2 x hx

lemma stimTrialsEvents_no_reset (feedback : Bool) (trialDur : ℚ) :
    ∀ (trials : List String) (n : Nat),
      (stimTrialsEvents feedback trialDur n trials).count .resetQueue = 0 := by
  intro trials
  induction trials with
  | nil => intro n; rfl
  | cons c rest ih =>
    intro n
    cases feedback <;>
      simp [stimTrialsEvents, stimTrialEvents, List.count_append,
        List.count_cons, ih (n + 1)]

/-- C8: the decode inbox is replaced exactly once per run, at the
transition from the pre-run wait to the first trial (positions 0 and 1 of
the run's event list), every message consumed by any feedback step arrived
strictly after that reset (so nothing received before or during PRE_RUN
reaches trial 1's feedback), and a feedback step consumes exactly the head
of the queue, preserving the backlog. -/
theorem C8_decode_inbox_reset_once :
    ∀ (trials : List String) (feedback : Bool) (trialDur : ℚ)
      (arrivals : Nat → List Nat),
      ((ssvepRunEvents trials feedback trialDur).count .resetQueue = 1) ∧
      ((ssvepRunEvents trials feedback trialDur).take 2 =
        [.preRunSleep, .resetQueue]) ∧
      (∀ x ∈ (queueRun arrivals (ssvepRunEvents trials feedback trialDur)
          0 []).2, 2 ≤ x.1) ∧
      (∀ (pos : Nat) (q : List (Nat × Nat)) (i : Nat),
        (queueStep arrivals pos q (.feedbackWait i)).1 =
          (q ++ (arrivals pos).map (fun m => (pos, m))).drop 1 ∧
        (queueStep arrivals pos q (.feedbackWait i)).2 =
          (q ++ (arrivals pos).map (fun m => (pos, m))).head? ∧
        (q ++ (arrivals pos).map (fun m => (pos, m))) =
          (match (q ++ (arrivals pos).map (fun m => (pos, m))).head? with
            | some m => [m]
            | none => []) ++
            (q ++ (arrivals pos).map (fun m => (pos, m))).drop 1) := by
  intro trials feedback trialDur arrivals
  refine ⟨?_, rfl, ?_, ?_⟩
  · simp [ssvepRunEvents, List.count_cons, List.count_append,
      stimTrialsEvents_no_reset feedback trialDur trials 0]
  · intro x hx
    have hunfold :
        (queueRun arrivals (ssvepRunEvents trials feedback trialDur) 0 []).2 =
          (queueRun arrivals
            (stimTrialsEvents feedback trialDur 0 trials ++ [.postRunSleep])
            2 []).2 := by
      simp [ssvepRunEvents, queueRun, queueStep, isSuspension]
    rw [hunfold] at hx
    exact (queueRun_tags arrivals
      (stimTrialsEvents feedback trialDur 0 trials ++ [.postRunSleep])
      2 [] 2 (le_refl 2) (by intro y hy; simp at hy)).2 x hx
  · intro pos q i
    refine ⟨rfl, rfl, ?_⟩
    cases hq : q ++ (arrivals pos).map (fun m => (pos, m)) with
    | nil => rfl
    | cons a tail => rfl

/-- Witness for C8: in a concrete run where message 100 arrives during
the pre-run sleep (position 0) and message 200 during the first trial's
sleep (position 4), the message consumed by the feedback step arrived at
position 4, after the reset. -/
theorem C8_decode_inbox_reset_once_witness :
    2 ≤ ((4, 200) : Nat × Nat).1 := by
  exact (C8_decode_inbox_reset_once ["A"] true 4
    (fun p => if p = 0 then [100] else if p = 4 then [200] else [])).2.2.1
    (4, 200) (by decide)

/-! ## SSVEP feedback correlation

ssvep/task.py 308-313:

    focus_idx = np.argmax(decode.data).item()
    focus_per = round(1000.0 / decode.freqs[focus_idx])
    correct = focus_per == target_stim.period_ms

`np.argmax` returns the first index attaining the maximum. -/

def argmaxIdx : List ℚ → Nat
  | [] => 0
  | [_] => 0
  | x :: y :: xs =>
    let r := argmaxIdx (y :: xs)
    if (y :: xs).getD r 0 ≤ x then 0 else r + 1

lemma argmaxIdx_cons_cons (x y : ℚ) (xs : List ℚ) :
    argmaxIdx (x :: y :: xs) =
      if (y :: xs).getD (argmaxIdx (y :: xs)) 0 ≤ x then 0
      else argmaxIdx (y :: xs) + 1 := rfl

lemma argmaxIdx_lt_length : ∀ l : List ℚ, l ≠ [] → argmaxIdx l < l.length := by
  intro l
  match l with
  | [] => intro h; exact absurd rfl h
  | [x] => intro _; simp [argmaxIdx]
  | x :: y :: xs =>
    intro _
    have ih := argmaxIdx_lt_length (y :: xs) (by simp)
    rw [argmaxIdx_cons_cons]
    by_cases hc : (y :: xs).getD (argmaxIdx (y :: xs)) 0 ≤ x
    · rw [if_pos hc]
      simp
    · rw [if_neg hc]
      simpa using Nat.succ_lt_succ ih

lemma argmaxIdx_maximal : ∀ (l : List ℚ) (j : Nat), j < l.length →
    l.getD j 0 ≤ l.getD (argmaxIdx l) 0 := by
  intro l
  match l with
  | [] => intro j hj; simp at hj
  | [x] =>
    intro j hj
    cases j with
    | zero => exact le_refl _
    | succ j' =>
      simp at hj
  | x :: y :: xs =>
    intro j hj
    have ih := fun j hj => argmaxIdx_maximal (y :: xs) j hj
    rw [argmaxIdx_cons_cons]
    by_cases hc : (y :: xs).getD (argmaxIdx (y :: xs)) 0 ≤ x
    · rw [if_pos hc]
      cases j with
      | zero => exact le_refl _
      | succ j' =>
        have hj' : j' < (y :: xs).length := by simpa using hj
        have h2 := (ih j' hj').trans hc
        simpa using h2
    · rw [if_neg hc]
      cases j with
      | zero =>
        simpa using le_of_lt (not_le.mp hc)
      | succ j' =>
        have hj' : j' < (y :: xs).length := by simpa using hj
        simpa using ih j' hj'

lemma argmaxIdx_first : ∀ (l : List ℚ) (j : Nat), j < argmaxIdx l →
    l.getD j 0 < l.getD (argmaxIdx l) 0 := by
  intro l
  match l with
  | [] => intro j hj; simp [argmaxIdx] at hj
  | [x] => intro j hj; simp [argmaxIdx] at hj
  | x :: y :: xs =>
    intro j hj
    have ih := fun j hj => argmaxIdx_first (y :: xs) j hj
    rw [argmaxIdx_cons_cons] at hj ⊢
    by_cases hc : (y :: xs).getD (argmaxIdx (y :: xs)) 0 ≤ x
    · rw [if_pos hc] at hj
      simp at hj
    · rw [if_neg hc] at hj ⊢
      cases j with
      | zero => simpa using not_le.mp hc
      | succ j' =>
        have hj' : j' < argmaxIdx (y :: xs) := by omega
        simpa using ih j' hj'

/-- The per-message correctness judgment of the feedback step. -/
def ssvepFeedbackCorrect (scores freqs : List ℚ)
    (targetPeriodMs : ℤ) : Bool :=
  let focusIdx := argmaxIdx scores
  let focusPer := pyRound (1000 / freqs.getD focusIdx 0)
  focusPer == targetPeriodMs

/-- C7: the feedback judgment takes the first index of maximal score,
maps it to a period via `round(1000/f)`, and reports a match exactly when
that period equals the target stimulus's period; the selected index is a
genuine argmax (first occurrence of the maximum, as `np.argmax` does). -/
theorem C7_feedback_argmax_match :
    ∀ (scores freqs : List ℚ) (targetPeriodMs : ℤ), scores ≠ [] →
      (ssvepFeedbackCorrect scores freqs targetPeriodMs = true ↔
        pyRound (1000 / freqs.getD (argmaxIdx scores) 0) = targetPeriodMs) ∧
      argmaxIdx scores < scores.length ∧
      (∀ j, j < scores.length →
        scores.getD j 0 ≤ scores.getD (argmaxIdx scores) 0) ∧
      (∀ j, j < argmaxIdx scores →
        scores.getD j 0 < scores.getD (argmaxIdx scores) 0) := by
  intro scores freqs targetPeriodMs hne
  refine ⟨?_, argmaxIdx_lt_length scores hne, ?_, ?_⟩
  · simp [ssvepFeedbackCorrect]
  · intro j hj
    exact argmaxIdx_maximal scores j hj
  · intro j hj
    exact argmaxIdx_first scores j hj

/-- Witness for C7: the spec's end-to-end scenario 3 — scores
`[0.1, 0.9]`, frequencies `[10 Hz, 8 Hz]`, target period 125 ms (8 Hz):
the argmax index 1 maps back to the target and the judgment is a match. -/
theorem C7_feedback_argmax_match_witness :
    ssvepFeedbackCorrect [1/10, 9/10] [10, 8] 125 = true ∧
    argmaxIdx [1/10, 9/10] = 1 := by
  have h := C7_feedback_argmax_match [1/10, 9/10] [10, 8] 125 (by decide)
  have hidx : argmaxIdx [1/10, 9/10] = 1 := by
    norm_num [argmaxIdx]
  refine ⟨h.1.mpr ?_, hidx⟩
  rw [hidx]
  show pyRound (1000 / (8 : ℚ)) = 125
  have : (1000 : ℚ) / 8 = 125 := by norm_num
  rw [this]
  norm_num [pyRound]

/-! ## Run-start configuration handling (reaction.py)

reaction.py 189-217: `task_implementation` snapshots the widget values and
immediately builds the trial order; the sources contain no validation step
and no `InvalidConfiguration` exception.  The only constraints on the
parameters are the `start` bounds of the panel input widgets (reaction.py
126-132), which clamp values typed below them at input time.  The `start`
bound of the ITI-max widget is fixed at construction to the ITI-min
widget's value at that moment (1.0) and is never updated. -/

def DIRECTIONS : List String := ["UP", "DOWN", "LEFT", "RIGHT"]

/-- The parameter snapshot grabbed at run start (reaction.py 195-201). -/
structure ReactionWidgets where
  trialsPerClass : ℤ
  timeoutSec : ℚ
  itiMin : ℚ
  itiMax : ℚ
  preRun : ℚ
  postRun : ℚ
  deriving DecidableEq

/-- A panel numeric input with a `start` bound clamps a committed value up
to that bound. -/
def widgetCommit (start v : ℚ) : ℚ := max start v

def intWidgetCommit (start v : ℤ) : ℤ := max start v

/-- The widget states reachable through the clamped inputs of
reaction.py 126-132: `trials_per_class ≥ 1`, `timeout ≥ 0.1`,
`iti_min ≥ 0`, `iti_max ≥ 1.0` (the construction-time value of iti_min —
not the current one), `pre/post ≥ 0`. -/
def ReachableReactionWidgets (w : ReactionWidgets) : Prop :=
  1 ≤ w.trialsPerClass ∧ 1/10 ≤ w.timeoutSec ∧ 0 ≤ w.itiMin ∧
    1 ≤ w.itiMax ∧ 0 ≤ w.preRun ∧ 0 ≤ w.postRun

inductive StartResult where
  | started (trials : List String)
  | invalidConfiguration
  deriving DecidableEq

/-- reaction.py 191-217 up to the first trial: grab values, build the
trial order, proceed.  There is no configuration check of any kind. -/
def reactionStartRun (shuffle : Nat → List String → List String)
    (w : ReactionWidgets) (centerOut : Bool) : StartResult :=
  let classes := if centerOut then DIRECTIONS else ["CENTER"]
  .started (reactionPlan shuffle w.trialsPerClass.toNat classes)

/-- Python `random.uniform(a, b) = a + (b - a) * u` with `u ∈ [0, 1]`;
it accepts `b < a` and then samples the reversed interval. -/
def pyUniform (a b u : ℚ) : ℚ := a + (b - a) * u

/-- A widget snapshot with ITI-max < ITI-min that the clamps allow. -/
def reactionBadWidgets : ReactionWidgets :=
  { trialsPerClass := 5, timeoutSec := 4, itiMin := 5, itiMax := 2,
    preRun := 3, postRun := 3 }

/-- Counterexample to C9: `reactionBadWidgets` violates the claimed
constraint ITI-max ≥ ITI-min, is reachable through the widget clamps, and
starting a run with it does not fail with InvalidConfiguration — the run
simply starts with its 5 planned trials. -/
theorem C9_counterexample_no_invalid_configuration :
    ReachableReactionWidgets reactionBadWidgets ∧
    reactionBadWidgets.itiMax < reactionBadWidgets.itiMin ∧
    reactionStartRun demoShuffle reactionBadWidgets false ≠
      .invalidConfiguration ∧
    reactionStartRun demoShuffle reactionBadWidgets false =
      .started ["CENTER", "CENTER", "CENTER", "CENTER", "CENTER"] := by
  refine ⟨?_, by norm_num [reactionBadWidgets], ?_, ?_⟩
  · refine ⟨by norm_num [reactionBadWidgets], by norm_num [reactionBadWidgets],
      by norm_num [reactionBadWidgets], by norm_num [reactionBadWidgets],
      by norm_num [reactionBadWidgets], by norm_num [reactionBadWidgets]⟩
  · intro h
    simp [reactionStartRun] at h
  · rfl

/-- C9 (amended): the lower bounds on trials-per-class, timeout, ITI-min
and pre/post-run are enforced only by input-time widget clamping; the run
start itself performs no validation — every snapshot starts the run and
`InvalidConfiguration` does not exist — and ITI-max ≥ ITI-min is not
enforced at all, a violating snapshot being reachable, in which case the
ITI is drawn from the reversed interval. -/
theorem C9_run_start_never_validates :
    (∀ (shuffle : Nat → List String → List String) (w : ReactionWidgets)
      (centerOut : Bool),
      reactionStartRun shuffle w centerOut =
        .started (reactionPlan shuffle w.trialsPerClass.toNat
          (if centerOut then DIRECTIONS else ["CENTER"])) ∧
      reactionStartRun shuffle w centerOut ≠ .invalidConfiguration) ∧
    (∀ v : ℤ, 1 ≤ intWidgetCommit 1 v) ∧
    (∀ v : ℚ, 1/10 ≤ widgetCommit (1/10) v) ∧
    (∀ v : ℚ, 0 ≤ widgetCommit 0 v) ∧
    (∃ w : ReactionWidgets,
      ReachableReactionWidgets w ∧ w.itiMax < w.itiMin) ∧
    (∀ a b u : ℚ, b ≤ a → 0 ≤ u → u ≤ 1 →
      b ≤ pyUniform a b u ∧ pyUniform a b u ≤ a) := by
  refine ⟨?_, ?_, ?_, ?_, ?_, ?_⟩
  · intro shuffle w centerOut
    refine ⟨rfl, ?_⟩
    intro h
    simp [reactionStartRun] at h
  · intro v; exact le_max_left 1 v
  · intro v; exact le_max_left _ v
  · intro v; exact le_max_left 0 v
  · refine ⟨reactionBadWidgets, ?_, by norm_num [reactionBadWidgets]⟩
    refine ⟨by norm_num [reactionBadWidgets], by norm_num [reactionBadWidgets],
      by norm_num [reactionBadWidgets], by norm_num [reactionBadWidgets],
      by norm_num [reactionBadWidgets], by norm_num [reactionBadWidgets]⟩
  · intro a b u hba hu0 hu1
    constructor
    · have h1 : 0 ≤ (a - b) * (1 - u) := by nlinarith
      unfold pyUniform
      nlinarith
    · have h2 : (b - a) * u ≤ 0 := by nlinarith
      unfold pyUniform
      nlinarith

/-- Witness for C9 (amended) at a concrete input. -/
theorem C9_run_start_never_validates_witness :
    reactionStartRun demoShuffle
        { trialsPerClass := 2, timeoutSec := 4, itiMin := 1, itiMax := 2,
          preRun := 3, postRun := 3 } true ≠ .invalidConfiguration ∧
    (2 : ℚ) ≤ pyUniform 5 2 (1/2) ∧ pyUniform 5 2 (1/2) ≤ 5 := by
  have h := C9_run_start_never_validates
  refine ⟨(h.1 demoShuffle _ true).2, ?_⟩
  have h6 := h.2.2.2.2.2 5 2 (1/2) (by norm_num) (by norm_num) (by norm_num)
  exact h6

/-! ## SSVEP class management (ssvep/dynamicclasses.py)

A `ClassEntry` row holds a class-frequency input and, in intermodulation
mode without a common base, also a per-class base-frequency input, which
then sits at index 1 of the row (`c[0][1]` — dynamicclasses.py 59-67).
`class_change_callback` (87-112) fires when a class-frequency value
changes: for a value whose millisecond period is not an integer it
computes the snapped frequency `1/(round((1/val)*1000)/1000)`, and it
scans the rows for another index-1 widget holding the same value.  Both
corrective assignments, however, are written `event.cls.value = ...`
(lines 96 and 107): in param, `event.cls` is the Parameterized CLASS of
the changed widget (`event.obj` is the instance), so they modify only the
`FloatInput` class-level default — the edited widget keeps the typed
value in every branch, and no row is ever snapped or reset.  At run start
(ssvep/task.py 207-213) classes with zero frequency — or zero base
frequency under intermodulation — are removed. -/

structure ClassEntry where
  name : String
  classFreq : ℚ
  baseName : Option String := none
  baseFreq : Option ℚ := none
  deriving DecidableEq

/-- The widget at index 1 of an entry's row (`c[0][1]`): the base
frequency when the row has one, the class frequency otherwise. -/
def rowSecondWidget (e : ClassEntry) : String × ℚ :=
  match e.baseName, e.baseFreq with
  | some bn, some b => (bn, b)
  | some _, none => (e.name, e.classFreq)
  | none, _ => (e.name, e.classFreq)

/-- dynamicclasses.py 96: `1/(round((1/val)*1000)/1000)`. -/
def snapFreq (val : ℚ) : ℚ := 1 / ((pyRound (1000 / val) : ℚ) / 1000)

/-- The state `class_change_callback` can touch: the row widgets and the
`FloatInput` class-level default that `event.cls.value = ...` writes. -/
structure DynamicClassesState where
  entries : List ClassEntry
  floatInputDefault : ℚ
  deriving DecidableEq

/-- The effect of `class_change_callback` when the class-frequency input
of entry `idx` is set to `newVal`: the instance assignment that fired the
event has already stored `newVal` in the widget; the snap (line 96) and
the duplicate reset (line 107) are `event.cls.value = ...` assignments
and land in the `FloatInput` class default, not in any row.  The
duplicate scan compares the snapped local `val` against the index-1
widgets' instance values (which still hold the typed, un-snapped
numbers). -/
def classChange (st : DynamicClassesState) (idx : Nat) (newVal : ℚ) :
    DynamicClassesState :=
  match st.entries.get? idx with
  | none => st
  | some e =>
    let entries1 := st.entries.set idx { e with classFreq := newVal }
    if newVal = 0 then { st with entries := entries1 }
    else
      let val := if (1000 / newVal).den = 1 then newVal else snapFreq newVal
      let default1 :=
        if (1000 / newVal).den = 1 then st.floatInputDefault
        else snapFreq newVal
      if entries1.any (fun c =>
          ((rowSecondWidget c).1 != e.name) && ((rowSecondWidget c).2 == val))
      then { entries := entries1, floatInputDefault := 0 }
      else { entries := entries1, floatInputDefault := default1 }

/-- `DynamicClasses.setting` for one row (dynamicclasses.py 69-79 and
177-186). -/
def entrySetting (intermod commonBase : Bool) (commonBaseVal : ℚ)
    (e : ClassEntry) : String × ℚ × ℚ :=
  if intermod then
    if commonBase then (e.name, e.classFreq, commonBaseVal)
    else (e.name, e.classFreq, e.baseFreq.getD 0)
  else (e.name, e.classFreq, 0)

/-- ssvep/task.py 209-213: drop classes with zero frequency, or — under
intermodulation — zero base frequency, before building the trial order. -/
def filterRunClasses (stimulusType : String)
    (classes : List (String × ℚ × ℚ)) : List (String × ℚ × ℚ) :=
  classes.filter (fun c =>
    !(c.2.1 == 0) && !((stimulusType == "Intermodulation") && (c.2.2 == 0)))

lemma pyRound_nearest (q : ℚ) : |q - (pyRound q : ℚ)| ≤ 1/2 := by
  have h1 : (⌊q⌋ : ℚ) ≤ q := Int.floor_le q
  have h2 : q < ⌊q⌋ + 1 := Int.lt_floor_add_one q
  unfold pyRound
  by_cases hc1 : q - (⌊q⌋ : ℚ) < 1/2
  · simp only [if_pos hc1]
    rw [abs_le]
    constructor <;> linarith
  · simp only [if_neg hc1]
    by_cases hc2 : 1/2 < q - (⌊q⌋ : ℚ)
    · simp only [if_pos hc2]
      push_cast
      rw [abs_le]
      constructor <;> linarith
    · simp only [if_neg hc2]
      have heq : q - (⌊q⌋ : ℚ) = 1/2 :=
        le_antisymm (not_lt.mp hc2) (not_lt.mp hc1)
      by_cases hc3 : ⌊q⌋ % 2 = 0
      · simp only [if_pos hc3]
        rw [abs_le]
        constructor <;> linarith
      · simp only [if_neg hc3]
        push_cast
        rw [abs_le]
        constructor <;> linarith

lemma pyRound_pos_of_large (q : ℚ) (h : 1 ≤ q) : pyRound q ≠ 0 := by
  have := pyRound_nearest q
  rw [abs_le] at this
  intro hz
  rw [hz] at this
  push_cast at this
  linarith [this.1]

/-- Membership in `filterRunClasses`: exactly the classes with nonzero
frequency (and, under intermodulation, nonzero base) survive to
planning — the one invariant of the class pipeline the program does
enforce. -/
lemma mem_filterRunClasses (st : String) (classes : List (String × ℚ × ℚ))
    (c : String × ℚ × ℚ) :
    c ∈ filterRunClasses st classes ↔
      (c ∈ classes ∧ c.2.1 ≠ 0 ∧ (st = "Intermodulation" → c.2.2 ≠ 0)) := by
  constructor
  · intro hmem
    have h := List.mem_filter.mp hmem
    refine ⟨h.1, ?_, ?_⟩
    · intro hz
      have hp := h.2
      simp [hz] at hp
    · intro hst hz
      have hp := h.2
      simp [hst, hz] at hp
  · rintro ⟨hmem, h1, h2⟩
    apply List.mem_filter.mpr
    refine ⟨hmem, ?_⟩
    simp only [Bool.and_eq_true, Bool.not_eq_true']
    constructor
    · simp only [beq_eq_false_iff_ne, ne_eq]
      exact h1
    · by_cases hst : st = "Intermodulation"
      · have := h2 hst
        simp [hst, this]
      · simp [hst]

/-- C10: the class-management invariants the claim asserts are dead code.
(i) Generally, the callback stores the typed value in the edited row and
modifies no row otherwise — both corrective writes go through
`event.cls` and land in the `FloatInput` class default.  (ii) Typing
57.15 Hz (period 17.4978 ms, not an integer number of milliseconds)
leaves the row at 57.15 while the ‘closest valid value’ announced by the
warning alert, 1000/17, lands only in the class default — the entry is
never snapped.  (iii) Typing 10 Hz into class 2 while class 1 already
holds 10 Hz (plain mode — the same happens in every mode) leaves both
rows at 10: the reset to 0 announced by the error alert lands in the
class default, and both classes reach planning sharing frequency 10.
Only the zero-frequency removal at run start behaves as the claim says
(`mem_filterRunClasses`, last conjunct). -/
theorem C10_callback_writes_class_default_not_rows :
    (∀ (st : DynamicClassesState) (idx : Nat) (e : ClassEntry) (v : ℚ),
      st.entries.get? idx = some e →
      (classChange st idx v).entries =
        st.entries.set idx { e with classFreq := v }) ∧
    ((classChange
        { entries := [{ name := "Class 1 (Hz)", classFreq := 0 }],
          floatInputDefault := 0 } 0 (1143/20)).entries =
      [{ name := "Class 1 (Hz)", classFreq := 1143/20 }]) ∧
    ((classChange
        { entries := [{ name := "Class 1 (Hz)", classFreq := 0 }],
          floatInputDefault := 0 } 0 (1143/20)).floatInputDefault =
      1000/17) ∧
    ¬isIntRat ((1000 : ℚ) / (1143/20)) ∧
    ((classChange
        { entries := [{ name := "Class 1 (Hz)", classFreq := 10 },
                      { name := "Class 2 (Hz)", classFreq := 0 }],
          floatInputDefault := 0 } 1 10).entries =
      [{ name := "Class 1 (Hz)", classFreq := 10 },
       { name := "Class 2 (Hz)", classFreq := 10 }]) ∧
    ((classChange
        { entries := [{ name := "Class 1 (Hz)", classFreq := 10 },
                      { name := "Class 2 (Hz)", classFreq := 0 }],
          floatInputDefault := 0 } 1 10).floatInputDefault = 0) ∧
    ((filterRunClasses "Checkerboard"
        ((classChange
            { entries := [{ name := "Class 1 (Hz)", classFreq := 10 },
                          { name := "Class 2 (Hz)", classFreq := 0 }],
              floatInputDefault := 0 } 1 10).entries.map
          (entrySetting false false 0))).map (fun c => c.2.1) = [10, 10]) ∧
    (∀ (st : String) (classes : List (String × ℚ × ℚ)) (c : String × ℚ × ℚ),
      c ∈ filterRunClasses st classes ↔
        (c ∈ classes ∧ c.2.1 ≠ 0 ∧ (st = "Intermodulation" → c.2.2 ≠ 0))) := by
  have hq : (1000 : ℚ) / (1143/20) = 20000/1143 := by norm_num
  have hfloor : ⌊(20000 : ℚ)/1143⌋ = 17 := by
    rw [Int.floor_eq_iff]
    constructor <;> norm_num
  have hni : ¬((20000 : ℚ)/1143).den = 1 := by
    intro h1
    have h2 : (((20000 : ℚ)/1143).num : ℚ) = 20000/1143 :=
      (Rat.den_eq_one_iff _).mp h1
    have h4 : ((⌊(20000 : ℚ)/1143⌋ : ℤ) : ℚ) = 20000/1143 := by
      nth_rewrite 1 [← h2]
      rw [Int.floor_intCast]
      exact h2
    rw [hfloor] at h4
    norm_num at h4
  have hni' : ¬((1000 : ℚ) / (1143/20)).den = 1 := by
    rw [hq]
    exact hni
  have hsnap : snapFreq (1143/20) = 1000/17 := by
    have hround : pyRound (20000/1143) = 17 := by
      unfold pyRound
      rw [hfloor]
      norm_num
    unfold snapFreq
    rw [hq, hround]
    norm_num
  have hgen : ∀ (st : DynamicClassesState) (idx : Nat) (e : ClassEntry)
      (v : ℚ), st.entries.get? idx = some e →
      (classChange st idx v).entries =
        st.entries.set idx { e with classFreq := v } := by
    intro st idx e v hget
    simp only [classChange, hget]
    split
    · rfl
    · split <;> split <;> rfl
  have hden10 : ((1000 : ℚ) / 10).den = 1 := by norm_num
  have hdup : classChange
      { entries := [{ name := "Class 1 (Hz)", classFreq := 10 },
                    { name := "Class 2 (Hz)", classFreq := 0 }],
        floatInputDefault := 0 } 1 10 =
      { entries := [{ name := "Class 1 (Hz)", classFreq := 10 },
                    { name := "Class 2 (Hz)", classFreq := 10 }],
        floatInputDefault := 0 } := by
    simp only [classChange, List.get?]
    rw [if_neg (by norm_num : ¬(10 : ℚ) = 0)]
    rw [if_pos hden10]
    norm_num [rowSecondWidget, List.set, List.any]
  have hsnapcase : classChange
      { entries := [{ name := "Class 1 (Hz)", classFreq := 0 }],
        floatInputDefault := 0 } 0 (1143/20) =
      { entries := [{ name := "Class 1 (Hz)", classFreq := 1143/20 }],
        floatInputDefault := 1000/17 } := by
    simp only [classChange, List.get?]
    rw [if_neg (by norm_num : ¬(1143/20 : ℚ) = 0)]
    rw [if_neg hni', if_neg hni']
    rw [hsnap]
    norm_num [rowSecondWidget, List.set, List.any]
  refine ⟨hgen, ?_, ?_, ?_, ?_, ?_, ?_, mem_filterRunClasses⟩
  · rw [hsnapcase]
  · rw [hsnapcase]
  · intro h
    exact hni' h
  · rw [hdup]
  · rw [hdup]
  · rw [hdup]
    norm_num [filterRunClasses, entrySetting, List.filter, List.map]

/-- Witness for C10: the general conjunct applied at a concrete edit —
the typed value 7 lands in the row, nothing else changes. -/
theorem C10_callback_writes_class_default_not_rows_witness :
    (classChange
        { entries := [{ name := "Class 1 (Hz)", classFreq := 5 }],
          floatInputDefault := 0 } 0 7).entries =
      [{ name := "Class 1 (Hz)", classFreq := 7 }] := by
  have h := C10_callback_writes_class_default_not_rows.1
    { entries := [{ name := "Class 1 (Hz)", classFreq := 5 }],
      floatInputDefault := 0 } 0
    { name := "Class 1 (Hz)", classFreq := 5 } 7 rfl
  simpa [List.set] using h

/-! ## The center-trial event race (reaction.py)

reaction.py 258-268:

    self.STATE.decode_event.clear()
    self.STATE.button.disabled = False
    await asyncio.wait([
        asyncio.create_task(coro) for coro in [
            self.STATE.button.wait(),
            self.STATE.decode_event.wait()
        ]],
        return_when = asyncio.FIRST_COMPLETED
    )

`AsyncButton.wait` (29-31) clears its event and waits on it, so both
events are effectively cleared when the race starts.  Per Python's
documented semantics, `asyncio.wait` returns `(done, pending)` when the
first task completes and neither cancels nor detaches the pending tasks;
the code discards the `pending` set.  The external sources are modelled by
the times at which `button._aio_event.set()` and `decode_event.set()` are
called. -/

inductive SignalId where
  | button
  | decode
  deriving DecidableEq

/-- A task attached to (waiting on) an event: its id, the signal it waits
on, and the time it attached (its clear happened then, so any set at or
after that time completes it). -/
structure RaceState where
  waiters : List (Nat × SignalId × ℚ)
  nextId : Nat
  deriving DecidableEq

def minQ : List ℚ → Option ℚ
  | [] => none
  | t :: ts =>
    match minQ ts with
    | none => some t
    | some u => some (min t u)

/-- The first `set()` call at or after time `s` (earlier sets were wiped
by the clear at `s`). -/
def firstSetAfter (sets : List ℚ) (s : ℚ) : Option ℚ :=
  minQ (sets.filter (fun t => decide (s ≤ t)))

/-- Winner of one `asyncio.wait(..., FIRST_COMPLETED)` race started at
time `s` and abandoned by `wait_for` at `s + T`: the earlier of the two
first sets if it beats the deadline, with the button winning ties (first
in the task list). -/
def raceWinner (buttonSets decodeSets : List ℚ) (s T : ℚ) :
    Option SignalId :=
  match firstSetAfter buttonSets s, firstSetAfter decodeSets s with
  | none, none => none
  | some tb, none => if tb < s + T then some .button else none
  | none, some td => if td < s + T then some .decode else none
  | some tb, some td =>
    if tb ≤ td then (if tb < s + T then some .button else none)
    else (if td < s + T then some .decode else none)

/-- One center-trial race: clear both events, attach two fresh waiter
tasks, resolve.  The completed winner detaches itself; the losing task —
or both, when `wait_for` times the trial out — stays attached, because
`asyncio.wait` does not cancel pending tasks and the code drops the
`pending` set. -/
def centerTrialRace (buttonSets decodeSets : List ℚ) (s T : ℚ)
    (st : RaceState) : RaceState × Option SignalId :=
  let winner := raceWinner buttonSets decodeSets s T
  let leftover : List (Nat × SignalId × ℚ) :=
    match winner with
    | some .button => [(st.nextId + 1, .decode, s)]
    | some .decode => [(st.nextId, .button, s)]
    | none => [(st.nextId, .button, s), (st.nextId + 1, .decode, s)]
  ({ waiters := st.waiters ++ leftover, nextId := st.nextId + 2 }, winner)

/-- When a leftover waiter attached at `attachTime` completes: at the
first set of its signal at or after that time. -/
def waiterCompletes (buttonSets decodeSets : List ℚ) (attachTime : ℚ)
    (g : SignalId) : Option ℚ :=
  firstSetAfter
    (match g with
      | .button => buttonSets
      | .decode => decodeSets) attachTime

/-- Two consecutive center trials. -/
def twoTrialRaces (buttonSets decodeSets : List ℚ) (s1 T1 s2 T2 : ℚ) :
    RaceState × Option SignalId × Option SignalId :=
  let st0 : RaceState := { waiters := [], nextId := 0 }
  let r1 := centerTrialRace buttonSets decodeSets s1 T1 st0
  let r2 := centerTrialRace buttonSets decodeSets s2 T2 r1.1
  (r2.1, r1.2, r2.2)

lemma minQ_le_of_mem : ∀ (l : List ℚ) (x : ℚ), x ∈ l →
    ∃ m, minQ l = some m ∧ m ≤ x := by
  intro l
  induction l with
  | nil => intro x hx; cases hx
  | cons t ts ih =>
    intro x hx
    rcases List.mem_cons.mp hx with rfl | hx2
    · cases hts : minQ ts with
      | none => exact ⟨x, by simp [minQ, hts], le_refl x⟩
      | some u => exact ⟨min x u, by simp [minQ, hts], min_le_left x u⟩
    · obtain ⟨m, hm, hle⟩ := ih x hx2
      refine ⟨min t m, ?_, (min_le_right t m).trans hle⟩
      simp [minQ, hm]

/-- Counterexample to C4.  Button pressed at t=1, decode match at t=6;
trial 1 races on [0, 4) and is won by the button, trial 2 races on
[5, 9) and is won by the decode signal.  After both races the losing
decode wait of trial 1 is still attached (`asyncio.wait` leaves pending
tasks attached and the code drops them), and the late decode fire at t=6
completes it — the claim that losing waits are detached and never
complete is false. -/
theorem C4_counterexample_losing_wait_stays_attached :
    ((twoTrialRaces [1] [6] 0 4 5 4).2.1 = some .button) ∧
    ((twoTrialRaces [1] [6] 0 4 5 4).1.waiters =
      [(1, SignalId.decode, 0), (2, SignalId.button, 5)]) ∧
    (waiterCompletes [1] [6] 0 .decode = some 6) ∧
    ((twoTrialRaces [1] [6] 0 4 5 4).2.2 = some .decode) := by
  have hb0 : firstSetAfter [1] 0 = some 1 := by
    norm_num [firstSetAfter, List.filter, minQ]
  have hd0 : firstSetAfter [6] 0 = some 6 := by
    norm_num [firstSetAfter, List.filter, minQ]
  have hb5 : firstSetAfter [1] 5 = none := by
    norm_num [firstSetAfter, List.filter, minQ]
  have hd5 : firstSetAfter [6] 5 = some 6 := by
    norm_num [firstSetAfter, List.filter, minQ]
  have hw1 : raceWinner [1] [6] 0 4 = some .button := by
    rw [raceWinner, hb0, hd0]
    norm_num
  have hw2 : raceWinner [1] [6] 5 4 = some .decode := by
    rw [raceWinner, hb5, hd5]
    norm_num
  refine ⟨?_, ?_, ?_, ?_⟩
  · simp [twoTrialRaces, centerTrialRace, hw1]
  · simp [twoTrialRaces, centerTrialRace, hw1, hw2]
  · rw [waiterCompletes]
    exact hd0
  · simp [twoTrialRaces, centerTrialRace, hw1, hw2]

/-- C4 (amended): the losing waits are NOT detached — the pending task of
a resolved race stays attached to its event and completes when that
signal later fires — but a leftover never influences the next trial's
race: each race's outcome is a function of the set schedule and its own
window only (both events are cleared at race start and the race waits
only on its own two fresh tasks). -/
theorem C4_leftover_waits_attached_but_inert :
    (∀ (b d : List ℚ) (s T : ℚ) (st st2 : RaceState),
      (centerTrialRace b d s T st).2 = (centerTrialRace b d s T st2).2) ∧
    (∀ (b d : List ℚ) (s t T : ℚ), t < s →
      raceWinner (t :: b) d s T = raceWinner b d s T ∧
      raceWinner b (t :: d) s T = raceWinner b d s T) ∧
    (∀ (b d : List ℚ) (s T : ℚ) (st : RaceState),
      raceWinner b d s T = some .button →
      (centerTrialRace b d s T st).1.waiters =
        st.waiters ++ [(st.nextId + 1, .decode, s)]) ∧
    (∀ (b d : List ℚ) (s u : ℚ), u ∈ d → s ≤ u →
      ∃ tc, waiterCompletes b d s .decode = some tc ∧ tc ≤ u) := by
  refine ⟨?_, ?_, ?_, ?_⟩
  · intro b d s T st st2
    rfl
  · intro b d s t T hts
    have hfilt : ∀ l : List ℚ,
        (t :: l).filter (fun x => decide (s ≤ x)) =
          l.filter (fun x => decide (s ≤ x)) := by
      intro l
      rw [List.filter_cons]
      simp [not_le.mpr hts]
    have hb : firstSetAfter (t :: b) s = firstSetAfter b s := by
      rw [firstSetAfter, firstSetAfter, hfilt b]
    have hd : firstSetAfter (t :: d) s = firstSetAfter d s := by
      rw [firstSetAfter, firstSetAfter, hfilt d]
    constructor
    · rw [raceWinner, raceWinner, hb]
    · rw [raceWinner, raceWinner, hd]
  · intro b d s T st hwin
    simp [centerTrialRace, hwin]
  · intro b d s u hu hsu
    have hmem : u ∈ d.filter (fun x => decide (s ≤ x)) :=
      List.mem_filter.mpr ⟨hu, by simpa using hsu⟩
    obtain ⟨m, hm, hle⟩ := minQ_le_of_mem _ u hmem
    exact ⟨m, by rw [waiterCompletes, firstSetAfter]; exact hm, hle⟩

/-- Witness for C4 (amended) at concrete schedules. -/
theorem C4_leftover_waits_attached_but_inert_witness :
    raceWinner [(-3), 1] [6] 0 4 = raceWinner [1] [6] 0 4 ∧
    (centerTrialRace [1] [6] 0 4
        { waiters := [], nextId := 0 }).1.waiters =
      [(1, SignalId.decode, 0)] ∧
    (waiterCompletes [1] [6] 0 .decode).isSome = true := by
  have h := C4_leftover_waits_attached_but_inert
  have hb0 : firstSetAfter [1] 0 = some 1 := by
    norm_num [firstSetAfter, List.filter, minQ]
  have hd0 : firstSetAfter [6] 0 = some 6 := by
    norm_num [firstSetAfter, List.filter, minQ]
  have hw1 : raceWinner [1] [6] 0 4 = some .button := by
    rw [raceWinner, hb0, hd0]
    norm_num
  refine ⟨?_, ?_, ?_⟩
  · exact (h.2.1 [1] [6] 0 (-3) 4 (by norm_num)).1
  · have h3 := h.2.2.1 [1] [6] 0 4 { waiters := [], nextId := 0 } hw1
    simpa using h3
  · obtain ⟨tc, hm, _⟩ :=
      h.2.2.2 [1] [6] 0 6 (List.mem_singleton.mpr rfl) (by norm_num)
    rw [hm]
    rfl

end EzmsgTasks
